import Mathlib

/-
  Verification development for the cf_tools CSV aggregation pipeline
  (src/main/services/csv-service.ts, embedded below as Lean definitions).

  Embedding conventions:
  - JavaScript numbers are modelled as exact rationals.  All arithmetic
    performed by the pipeline on parsed cell values is addition, counting
    and one division at emission time, which the rational model mirrors
    field by field.
  - JavaScript strings are Lean strings; the comparator passed to sort
    calls (localeCompare) is modelled as code-point lexicographic order.
  - A Map is modelled as an association list with the replace-or-append
    update semantics of Map.set, which preserves insertion order exactly
    as the JavaScript Map does.
  - Fallible cell parsing returns Option: none models null / NaN results.
  - The dayjs permissive fallback parser used after the eight strict
    date patterns is third-party code; the functions that depend on it
    take it as an explicit parameter, so every theorem below holds for
    every possible behaviour of that fallback.
-/

section Spec2Proof

attribute [local semireducible] Rat.add Rat.mul Rat.sub Rat.inv

/-! ### String utilities -/

/-- Whitespace test used to model the \s class and String.prototype.trim. -/
def jsIsWS (c : Char) : Bool := c.isWhitespace

/-- Model of String.prototype.trim: drop leading and trailing whitespace. -/
def jsTrim (s : String) : String :=
  ⟨(s.data.dropWhile jsIsWS).reverse.dropWhile jsIsWS |>.reverse⟩

/-- Model of value.replace(new global single-char pattern, empty string):
removes every occurrence of the character from the string. -/
def removeAllChar (c : Char) (s : String) : String :=
  ⟨s.data.filter (fun x => x ≠ c)⟩

/-! ### JavaScript Number(string) on a decimal literal

The pipeline feeds Number a trimmed string with commas and percent signs
removed.  We model the StrDecimalLiteral grammar: optional sign, then
digits with an optional fraction part and an optional exponent part, or
the Infinity literal (non-finite, hence modelled as none just like NaN,
matching the Number.isFinite guard in parseNumeric).  Non-decimal forms
(hex, octal, binary) are outside the data population of this pipeline
and are not modelled. -/

/-- Numeric value of a decimal digit character. -/
def digitVal (c : Char) : Nat := c.toNat - 48

/-- Value of a string of decimal digits, most significant first. -/
def digitsVal (ds : List Char) : Nat :=
  ds.foldl (fun acc c => 10 * acc + digitVal c) 0

/-- Parses an optional exponent part (e or E, optional sign, digits) that
must consume the entire remainder; returns the mantissa scaled by the
exponent, or none when the remainder is not a well-formed exponent. -/
def applyExp (mant : ℚ) : List Char → Option ℚ
  | [] => some mant
  | c :: rest =>
    if c = 'e' ∨ c = 'E' then
      let (sign, rest2) : ℤ × List Char :=
        match rest with
        | '+' :: r => (1, r)
        | '-' :: r => (-1, r)
        | r => (1, r)
      let (expDs, rest3) := rest2.span Char.isDigit
      if expDs.isEmpty ∨ ¬ rest3.isEmpty then none
      else some (mant * (10 : ℚ) ^ (sign * (digitsVal expDs : ℤ)))
    else none

/-- Parses the unsigned body of a decimal literal (digits, optional
fraction, optional exponent); the whole remainder must be consumed. -/
def jsNumberCore (sign : ℚ) (cs : List Char) : Option ℚ :=
  if cs = "Infinity".data then none
  else
    let (intDs, rest) := cs.span Char.isDigit
    match rest with
    | [] => if intDs.isEmpty then none else some (sign * digitsVal intDs)
    | '.' :: rest2 =>
      let (fracDs, rest3) := rest2.span Char.isDigit
      if intDs.isEmpty ∧ fracDs.isEmpty then none
      else
        let mant : ℚ :=
          (digitsVal intDs : ℚ) + (digitsVal fracDs : ℚ) / (10 : ℚ) ^ fracDs.length
        (applyExp mant rest3).map (fun q => sign * q)
    | _ =>
      if intDs.isEmpty then none
      else (applyExp (digitsVal intDs : ℚ) rest).map (fun q => sign * q)

/-- Model of Number(s) for the strings reaching it in parseNumeric,
returning none for NaN and for the non-finite Infinity literals. -/
def jsNumber (s : String) : Option ℚ :=
  match s.data with
  | [] => some 0
  | '+' :: rest => jsNumberCore 1 rest
  | '-' :: rest => jsNumberCore (-1) rest
  | cs => jsNumberCore 1 cs

/-! ### ValueParsers from csv-service.ts -/

/-- Embedding of parseNumeric: trims, removes every comma, removes every
percent sign, returns none on an empty remainder or a non-finite value,
otherwise the numeric value.  The undefined argument case (an absent
cell) is the none constructor of the Option argument. -/
def parseNumeric (value : Option String) : Option ℚ :=
  match value with
  | none => none
  | some v =>
    let cleaned := removeAllChar '%' (removeAllChar ',' (jsTrim v))
    if cleaned = "" then none
    else jsNumber cleaned

/-- Modelled from the spec: the reading of parseNumeric in which only
trailing percent signs are stripped (the spec sentence says strips comma
thousands-separators and trailing percent signs); commas are removed as
in the source, but percent signs are only removed from the end of the
string.  Used to compare the spec wording with the source behaviour. -/
def parseNumericTrailingPercent (value : Option String) : Option ℚ :=
  match value with
  | none => none
  | some v =>
    let cleaned : String :=
      ⟨((removeAllChar ',' (jsTrim v)).data.reverse.dropWhile (fun c => c = '%')).reverse⟩
    if cleaned = "" then none
    else jsNumber cleaned

/-- Rounds a rational to six decimal places as Number.prototype.toFixed
does: the numerator over 10^6 closest to the value, ties toward the
larger numerator. -/
def roundHalfUp6 (q : ℚ) : ℤ := ⌊q * 1000000 + 1 / 2⌋

/-- Prints a natural number left-padded with zeros to six digits. -/
def pad6 (n : Nat) : String :=
  let s := toString n
  ⟨List.replicate (6 - s.length) '0' ++ s.data⟩

/-- Prints z / 10^6 in decimal with trailing zeros (and a bare decimal
point) dropped, as Number(x.toFixed(6)).toString() does. -/
def decimalString6 (z : ℤ) : String :=
  let sign := if z < 0 then "-" else ""
  let n := z.natAbs
  let ip := n / 1000000
  let fp := n % 1000000
  if fp = 0 then sign ++ toString ip
  else sign ++ toString ip ++ "." ++ ⟨((pad6 fp).data.reverse.dropWhile (fun c => c = '0')).reverse⟩

/-- Embedding of formatNumber: every rational is finite, so the
non-finite guard of the source never fires in the model; the value is
rounded to six decimals and printed in shortest form. -/
def formatNumber (q : ℚ) : String := decimalString6 (roundHalfUp6 q)

/-- Embedding of formatAverage: an empty string when the count of valid
observations is zero or negative, otherwise the formatted mean. -/
def formatAverage (sum count : ℚ) : String :=
  if count ≤ 0 then "" else formatNumber (sum / count)

/-! ### AggBucket and its operations -/

/-- Embedding of the AggBucket interface: the aggregation unit for one
(day, network) key, holding two plain running sums and eight
sum-and-count pairs. -/
@[ext]
structure AggBucket where
  date : String
  network : String
  flowSum : ℚ
  maxUserSum : ℚ
  ulPrbSum : ℚ
  ulPrbCount : ℚ
  dlPrbSum : ℚ
  dlPrbCount : ℚ
  ulRateSum : ℚ
  ulRateCount : ℚ
  dlRateSum : ℚ
  dlRateCount : ℚ
  accessRateSum : ℚ
  accessRateCount : ℚ
  dropRateSum : ℚ
  dropRateCount : ℚ
  handoverRateSum : ℚ
  handoverRateCount : ℚ
  interferenceSum : ℚ
  interferenceCount : ℚ
deriving DecidableEq

/-- Embedding of createEmptyBucket: all sums and counts are zero. -/
def createEmptyBucket (date network : String) : AggBucket :=
  { date := date, network := network,
    flowSum := 0, maxUserSum := 0,
    ulPrbSum := 0, ulPrbCount := 0,
    dlPrbSum := 0, dlPrbCount := 0,
    ulRateSum := 0, ulRateCount := 0,
    dlRateSum := 0, dlRateCount := 0,
    accessRateSum := 0, accessRateCount := 0,
    dropRateSum := 0, dropRateCount := 0,
    handoverRateSum := 0, handoverRateCount := 0,
    interferenceSum := 0, interferenceCount := 0 }

/-- Embedding of mergeBucket: field-wise addition of every sum and every
count of the source bucket into the target bucket; the date and network
of the target are kept (the source mutates the target in place and never
touches its date or network). -/
def mergeBucket (target source : AggBucket) : AggBucket :=
  { target with
    flowSum := target.flowSum + source.flowSum,
    maxUserSum := target.maxUserSum + source.maxUserSum,
    ulPrbSum := target.ulPrbSum + source.ulPrbSum,
    ulPrbCount := target.ulPrbCount + source.ulPrbCount,
    dlPrbSum := target.dlPrbSum + source.dlPrbSum,
    dlPrbCount := target.dlPrbCount + source.dlPrbCount,
    ulRateSum := target.ulRateSum + source.ulRateSum,
    ulRateCount := target.ulRateCount + source.ulRateCount,
    dlRateSum := target.dlRateSum + source.dlRateSum,
    dlRateCount := target.dlRateCount + source.dlRateCount,
    accessRateSum := target.accessRateSum + source.accessRateSum,
    accessRateCount := target.accessRateCount + source.accessRateCount,
    dropRateSum := target.dropRateSum + source.dropRateSum,
    dropRateCount := target.dropRateCount + source.dropRateCount,
    handoverRateSum := target.handoverRateSum + source.handoverRateSum,
    handoverRateCount := target.handoverRateCount + source.handoverRateCount,
    interferenceSum := target.interferenceSum + source.interferenceSum,
    interferenceCount := target.interferenceCount + source.interferenceCount }

/-- Embedding of the addAvgField helper on one sum-and-count pair: a null
value leaves the pair unchanged and reports false; a parsed value is
added to the sum, the count is incremented, and true is reported. -/
def addAvgField (sum count : ℚ) : Option ℚ → ℚ × ℚ × Bool
  | none => (sum, count, false)
  | some v => (sum + v, count + 1, true)

/-- The eighteen numeric accumulator fields of a bucket, in declaration
order; used to speak about the numeric content of a bucket apart from
its date and network labels. -/
def numericFields (b : AggBucket) : List ℚ :=
  [b.flowSum, b.maxUserSum,
   b.ulPrbSum, b.ulPrbCount, b.dlPrbSum, b.dlPrbCount,
   b.ulRateSum, b.ulRateCount, b.dlRateSum, b.dlRateCount,
   b.accessRateSum, b.accessRateCount, b.dropRateSum, b.dropRateCount,
   b.handoverRateSum, b.handoverRateCount,
   b.interferenceSum, b.interferenceCount]

/-! ### Output rows -/

/-- The grand-total label written into the time cell of the final row. -/
def GRAND_TOTAL_LABEL : String := "总计"

/-- Embedding of the OutputRow record produced by toOutputRow.  The
source keys the record by the twelve output column names; the fields
here carry the same internal names the source uses for the column
indices: time = 时间, network = 网络, flow = 5G总流量(GB), maxUser =
5G最大用户数, ulPrb / dlPrb = the PRB utilisation columns, ulRate /
dlRate = the throughput columns, accessRate, dropRate, handoverRate and
interference = the remaining averaged columns. -/
@[ext]
structure OutputRow where
  time : String
  network : String
  flow : String
  maxUser : String
  ulPrb : String
  dlPrb : String
  ulRate : String
  dlRate : String
  accessRate : String
  dropRate : String
  handoverRate : String
  interference : String
deriving DecidableEq

/-- Embedding of toOutputRow: the time and network cells may be
overridden (the ?? fallback on the optional parameters), the two plain
sums go through formatNumber and the eight averaged fields go through
formatAverage. -/
def toOutputRow (item : AggBucket) (dateValue networkValue : Option String) : OutputRow :=
  { time := dateValue.getD item.date,
    network := networkValue.getD item.network,
    flow := formatNumber item.flowSum,
    maxUser := formatNumber item.maxUserSum,
    ulPrb := formatAverage item.ulPrbSum item.ulPrbCount,
    dlPrb := formatAverage item.dlPrbSum item.dlPrbCount,
    ulRate := formatAverage item.ulRateSum item.ulRateCount,
    dlRate := formatAverage item.dlRateSum item.dlRateCount,
    accessRate := formatAverage item.accessRateSum item.accessRateCount,
    dropRate := formatAverage item.dropRateSum item.dropRateCount,
    handoverRate := formatAverage item.handoverRateSum item.handoverRateCount,
    interference := formatAverage item.interferenceSum item.interferenceCount }

/-- The ten formatted numeric cells of an output row, excluding the time
and network cells. -/
def numericCells (r : OutputRow) : List String :=
  [r.flow, r.maxUser, r.ulPrb, r.dlPrb, r.ulRate, r.dlRate,
   r.accessRate, r.dropRate, r.handoverRate, r.interference]

/-! ### Claim C5: parseNumeric behaviour -/

/-- Amended reading of the parseNumeric sentence: every comma and every
percent sign is stripped wherever it occurs in the trimmed string, not
only trailing percent signs. -/
def parseNumericGlobalStrip (value : Option String) : Option ℚ :=
  match value with
  | none => none
  | some v =>
    let cleaned : String := ⟨(jsTrim v).data.filter (fun c => ¬ (c = ',' ∨ c = '%'))⟩
    if cleaned = "" then none
    else jsNumber cleaned

/-! ### Claim C6: mergeBucket is associative and order-insensitive -/

/-- Sample bucket used by closed witnesses. -/
def sampleBucketA : AggBucket :=
  { createEmptyBucket "2025-01-01" "NSA" with
    flowSum := 10, maxUserSum := 100, ulPrbSum := 20, ulPrbCount := 1 }

/-- Second sample bucket used by closed witnesses. -/
def sampleBucketB : AggBucket :=
  { createEmptyBucket "2025-01-01" "SA" with
    flowSum := 5, maxUserSum := 50, ulPrbSum := 15, ulPrbCount := 1 }

/-! ### TextNormalizer -/

/-- Drops one leading byte-order mark, as the anchored BOM pattern does. -/
def stripLeadingBOM (l : List Char) : List Char :=
  match l with
  | c :: rest => if c = '﻿' then rest else l
  | [] => l

/-- Folds a full-width parenthesis to its ASCII counterpart. -/
def foldParens (c : Char) : Char :=
  if c = '（' then '(' else if c = '）' then ')' else c

/-- Collapses every run of whitespace to a single space, modelling the
global replacement of one-or-more whitespace with one space; the flag
records whether the current position is inside a run whose single space
has already been emitted. -/
def collapseWSAux : Bool → List Char → List Char
  | _, [] => []
  | inRun, c :: rest =>
    if jsIsWS c then
      if inRun then collapseWSAux true rest
      else ' ' :: collapseWSAux true rest
    else c :: collapseWSAux false rest

/-- Collapses every run of whitespace to a single space. -/
def collapseWS (l : List Char) : List Char := collapseWSAux false l

/-- Embedding of normalizeHeader: strip a leading BOM, fold full-width
parentheses, collapse whitespace runs, trim. -/
def normalizeHeader (value : String) : String :=
  jsTrim ⟨collapseWS ((stripLeadingBOM value.data).map foldParens)⟩

/-! ### parseDateToDay: the eight strict dayjs patterns

The strict patterns are matched exactly: each token consumes its fixed
digit count, separators are literal, the whole input must be consumed,
and the resulting calendar date and clock time must be valid, which is
what dayjs strict parsing checks by re-formatting.  The permissive dayjs
fallback tried after the strict patterns is a third-party library and is
passed in as a parameter dj, so the theorems hold for every behaviour of
that fallback. -/

/-- Reads exactly k decimal digits and returns their value. -/
def readDigits (k : Nat) (cs : List Char) : Option (Nat × List Char) :=
  let ds := cs.take k
  if ds.length = k ∧ ds.all Char.isDigit then some (digitsVal ds, cs.drop k) else none

/-- Reads one literal character. -/
def readLit (c : Char) : List Char → Option (List Char)
  | x :: rest => if x = c then some rest else none
  | [] => none

/-- Gregorian leap-year test. -/
def isLeapYear (y : Nat) : Bool := (y % 4 = 0 ∧ y % 100 ≠ 0) ∨ y % 400 = 0

/-- Number of days of month m in year y. -/
def daysInMonth (y m : Nat) : Nat :=
  if m = 2 then (if isLeapYear y then 29 else 28)
  else if m = 4 ∨ m = 6 ∨ m = 9 ∨ m = 11 then 30 else 31

/-- Validity of a calendar date. -/
def validDate (y m d : Nat) : Bool :=
  1 ≤ m ∧ m ≤ 12 ∧ 1 ≤ d ∧ d ≤ daysInMonth y m

/-- Validity of a clock time. -/
def validTime (h mi s : Nat) : Bool := h ≤ 23 ∧ mi ≤ 59 ∧ s ≤ 59

/-- Zero-pads a number to two digits. -/
def pad2 (n : Nat) : String := if n < 10 then "0" ++ toString n else toString n

/-- Zero-pads a number to four digits. -/
def pad4 (n : Nat) : String :=
  let s := toString n
  ⟨List.replicate (4 - s.length) '0' ++ s.data⟩

/-- Formats a date as the zero-padded YYYY-MM-DD day string. -/
def formatDay (y m d : Nat) : String := pad4 y ++ "-" ++ pad2 m ++ "-" ++ pad2 d

/-- Matches the clock part of a strict pattern after the date part: for
timeParts = 0 the remainder must be empty; for timeParts = 1 a space and
a valid HH:mm must follow; for timeParts = 2 a space and a valid
HH:mm:ss; the whole remainder must be consumed. -/
def matchClock (timeParts : Nat) (cs : List Char) : Option Unit :=
  if timeParts = 0 then (if cs.isEmpty then some () else none)
  else
    (readLit ' ' cs).bind fun cs =>
    (readDigits 2 cs).bind fun (h, cs) =>
    (readLit ':' cs).bind fun cs =>
    (readDigits 2 cs).bind fun (mi, cs) =>
    ((if timeParts = 1 then (if cs.isEmpty then some (h, mi, 0) else none)
      else
       (readLit ':' cs).bind fun cs =>
       (readDigits 2 cs).bind fun (s, cs2) =>
       if cs2.isEmpty then some (h, mi, s) else none) :
        Option (Nat × Nat × Nat)).bind fun (h2, mi2, s2) =>
    if validTime h2 mi2 s2 then some () else none

/-- Matches the separator-based date patterns: YYYY sep MM sep DD,
optionally followed by a space and HH:mm (timeParts = 1) or HH:mm:ss
(timeParts = 2); timeParts = 0 means a bare date.  The match must
consume the whole input and denote a valid date and time. -/
def matchSepPattern (sep : Char) (timeParts : Nat) (cs : List Char) : Option (Nat × Nat × Nat) :=
  (readDigits 4 cs).bind fun (y, cs) =>
  (readLit sep cs).bind fun cs =>
  (readDigits 2 cs).bind fun (m, cs) =>
  (readLit sep cs).bind fun cs =>
  (readDigits 2 cs).bind fun (d, cs) =>
  (matchClock timeParts cs).bind fun _ =>
  if validDate y m d then some (y, m, d) else none

/-- Matches the compact digit patterns YYYYMMDDHHmmss and YYYYMMDD. -/
def matchCompactPattern (withTime : Bool) (cs : List Char) : Option (Nat × Nat × Nat) :=
  (readDigits 4 cs).bind fun (y, cs) =>
  (readDigits 2 cs).bind fun (m, cs) =>
  (readDigits 2 cs).bind fun (d, cs) =>
  (if withTime then
    (readDigits 2 cs).bind fun (h, cs) =>
    (readDigits 2 cs).bind fun (mi, cs) =>
    (readDigits 2 cs).bind fun (s, cs) =>
    if cs.isEmpty ∧ validTime h mi s then some () else none
   else if cs.isEmpty then some () else none).bind fun _ =>
  if validDate y m d then some (y, m, d) else none

/-- Tries the eight strict date patterns in the order of DATE_PATTERNS;
the first match wins and its date portion is formatted as YYYY-MM-DD. -/
def tryStrictPatterns (raw : String) : Option String :=
  let cs := raw.data
  ((matchSepPattern '-' 2 cs <|> matchSepPattern '/' 2 cs <|>
    matchSepPattern '-' 1 cs <|> matchSepPattern '/' 1 cs <|>
    matchSepPattern '-' 0 cs <|> matchSepPattern '/' 0 cs <|>
    matchCompactPattern true cs <|> matchCompactPattern false cs)).map
    fun (y, m, d) => formatDay y m d

/-- Embedding of parseDateToDay: trims, returns none on empty input,
tries the strict patterns in order, then falls back to the permissive
dayjs parser dj; none means no valid day could be extracted. -/
def parseDateToDay (dj : String → Option String) (value : String) : Option String :=
  let raw := jsTrim value
  if raw = "" then none
  else
    match tryStrictPatterns raw with
    | some day => some day
    | none => dj raw

/-! ### StreamingAggregator state -/

/-- Lookup in an insertion-ordered association list (Map.get). -/
def mapGetA {α : Type} (m : List (String × α)) (k : String) : Option α :=
  (m.find? (fun p => p.1 = k)).map Prod.snd

/-- Update in an insertion-ordered association list (Map.set): replaces
the value in place when the key is present, appends otherwise. -/
def mapSetA {α : Type} (m : List (String × α)) (k : String) (v : α) : List (String × α) :=
  if m.any (fun p => p.1 = k) then m.map (fun p => if p.1 = k then (k, v) else p)
  else m ++ [(k, v)]

/-- Embedding of the colIndex record: the resolved column index of each
required field, with -1 as the not-found sentinel exactly as the source
defaults absent map entries. -/
structure ColIndex where
  time : Int
  network : Int
  flow : Int
  maxUser : Int
  ulPrb : Int
  dlPrb : Int
  ulRate : Int
  dlRate : Int
  accessRate : Int
  dropRate : Int
  handoverRate : Int
  interference : Int
deriving DecidableEq

/-- Builds the header-name-to-index map: each normalized header cell is
assigned its position, later duplicates overwriting earlier ones as
repeated Map.set calls do. -/
def buildIndexMap (header : List String) : List (String × Nat) :=
  header.enum.foldl (fun m p => mapSetA m (normalizeHeader p.2) p.1) []

/-- Index lookup with the -1 sentinel of the source. -/
def idxOrNeg (m : List (String × Nat)) (k : String) : Int :=
  match mapGetA m k with
  | some i => (i : Int)
  | none => -1

/-- Builds the colIndex record from the header row. -/
def buildColIndex (header : List String) : ColIndex :=
  let m := buildIndexMap header
  { time := idxOrNeg m "时间",
    network := idxOrNeg m "网络",
    flow := idxOrNeg m "5G总流量(GB)",
    maxUser := idxOrNeg m "5G最大用户数",
    ulPrb := idxOrNeg m "5G上行PRB利用率(%)",
    dlPrb := idxOrNeg m "5G下行PRB利用率(%)",
    ulRate := idxOrNeg m "5G上行体验速率(Mbps)",
    dlRate := idxOrNeg m "5G下行体验速率(Mbps)",
    accessRate := idxOrNeg m "5G无线接通率(%)",
    dropRate := idxOrNeg m "5G无线掉线率(%)",
    handoverRate := idxOrNeg m "5G切换成功率(%)",
    interference := idxOrNeg m "5G上行平均干扰(dBm)" }

/-- Indexing a row as JavaScript array indexing: any index outside the
row (including the -1 sentinel) reads undefined, modelled as none. -/
def getCell (row : List String) (i : Int) : Option String :=
  if h : 0 ≤ i ∧ i.toNat < row.length then some (row.get ⟨i.toNat, h.2⟩) else none

/-- The initial invalidFieldStats record: twelve tracked keys (the time
field, the network field and the ten numeric fields), all zero. -/
def initialInvalidFieldStats : List (String × Nat) :=
  [("时间", 0), ("网络", 0),
   ("5G总流量(GB)", 0), ("5G最大用户数", 0),
   ("5G上行PRB利用率(%)", 0), ("5G下行PRB利用率(%)", 0),
   ("5G上行体验速率(Mbps)", 0), ("5G下行体验速率(Mbps)", 0),
   ("5G无线接通率(%)", 0), ("5G无线掉线率(%)", 0),
   ("5G切换成功率(%)", 0), ("5G上行平均干扰(dBm)", 0)]

/-- Increment of one tracked counter: the += 1 on a pre-existing key of
the stats record; no new key is ever created. -/
def bumpStat (m : List (String × Nat)) (k : String) : List (String × Nat) :=
  m.map (fun p => if p.1 = k then (p.1, p.2 + 1) else p)

/-- The mutable state of the aggregation pass: the bucket map keyed by
day__network, the two row counters, and the invalid-field counters. -/
structure ParseState where
  buckets : List (String × AggBucket)
  processedRows : Nat
  skippedRows : Nat
  invalidFieldStats : List (String × Nat)
deriving DecidableEq

/-- The state before the first data row. -/
def initParseState : ParseState :=
  { buckets := [], processedRows := 0, skippedRows := 0,
    invalidFieldStats := initialInvalidFieldStats }

/-- Counter value of one tracked key of a stats record. -/
def statOf (m : List (String × Nat)) (k : String) : Nat :=
  (mapGetA m k).getD 0

/-- Counter value of one tracked key of a state. -/
def statAt (st : ParseState) (k : String) : Nat :=
  statOf st.invalidFieldStats k

/-- Update of one sum-only field, the sum-field analogue of addAvgField
mirroring the inline null test of the source: a null value leaves the
sum unchanged and reports false, a parsed value is added and reports
true. -/
def addSumField (sum : ℚ) : Option ℚ → ℚ × Bool
  | none => (sum, false)
  | some v => (sum + v, true)

/-- Embedding of the body of the row loop of parseDataRows for one data
row: increments processedRows, skips the row on an unparsable time or an
empty trimmed network (incrementing that counter and skippedRows), and
otherwise folds each of the ten numeric fields into the (day, network)
bucket independently, counting per-field parse failures. -/
def processRow (dj : String → Option String) (ci : ColIndex)
    (st : ParseState) (row : List String) : ParseState :=
  let st := { st with processedRows := st.processedRows + 1 }
  let timeRaw := (getCell row ci.time).getD ""
  let networkRaw := jsTrim ((getCell row ci.network).getD "")
  match parseDateToDay dj timeRaw with
  | none =>
    { st with invalidFieldStats := bumpStat st.invalidFieldStats "时间",
              skippedRows := st.skippedRows + 1 }
  | some day =>
    if networkRaw = "" then
      { st with invalidFieldStats := bumpStat st.invalidFieldStats "网络",
                skippedRows := st.skippedRows + 1 }
    else
      let key := day ++ "__" ++ networkRaw
      let bucket := (mapGetA st.buckets key).getD (createEmptyBucket day networkRaw)
      let stats := st.invalidFieldStats
      let (bucket, stats) :=
        match addSumField bucket.flowSum (parseNumeric (getCell row ci.flow)) with
        | (s, added) =>
          ({ bucket with flowSum := s },
           if added then stats else bumpStat stats "5G总流量(GB)")
      let (bucket, stats) :=
        match addSumField bucket.maxUserSum (parseNumeric (getCell row ci.maxUser)) with
        | (s, added) =>
          ({ bucket with maxUserSum := s },
           if added then stats else bumpStat stats "5G最大用户数")
      let (bucket, stats) :=
        match addAvgField bucket.ulPrbSum bucket.ulPrbCount (parseNumeric (getCell row ci.ulPrb)) with
        | (s, c, added) =>
          ({ bucket with ulPrbSum := s, ulPrbCount := c },
           if added then stats else bumpStat stats "5G上行PRB利用率(%)")
      let (bucket, stats) :=
        match addAvgField bucket.dlPrbSum bucket.dlPrbCount (parseNumeric (getCell row ci.dlPrb)) with
        | (s, c, added) =>
          ({ bucket with dlPrbSum := s, dlPrbCount := c },
           if added then stats else bumpStat stats "5G下行PRB利用率(%)")
      let (bucket, stats) :=
        match addAvgField bucket.ulRateSum bucket.ulRateCount (parseNumeric (getCell row ci.ulRate)) with
        | (s, c, added) =>
          ({ bucket with ulRateSum := s, ulRateCount := c },
           if added then stats else bumpStat stats "5G上行体验速率(Mbps)")
      let (bucket, stats) :=
        match addAvgField bucket.dlRateSum bucket.dlRateCount (parseNumeric (getCell row ci.dlRate)) with
        | (s, c, added) =>
          ({ bucket with dlRateSum := s, dlRateCount := c },
           if added then stats else bumpStat stats "5G下行体验速率(Mbps)")
      let (bucket, stats) :=
        match addAvgField bucket.accessRateSum bucket.accessRateCount (parseNumeric (getCell row ci.accessRate)) with
        | (s, c, added) =>
          ({ bucket with accessRateSum := s, accessRateCount := c },
           if added then stats else bumpStat stats "5G无线接通率(%)")
      let (bucket, stats) :=
        match addAvgField bucket.dropRateSum bucket.dropRateCount (parseNumeric (getCell row ci.dropRate)) with
        | (s, c, added) =>
          ({ bucket with dropRateSum := s, dropRateCount := c },
           if added then stats else bumpStat stats "5G无线掉线率(%)")
      let (bucket, stats) :=
        match addAvgField bucket.handoverRateSum bucket.handoverRateCount (parseNumeric (getCell row ci.handoverRate)) with
        | (s, c, added) =>
          ({ bucket with handoverRateSum := s, handoverRateCount := c },
           if added then stats else bumpStat stats "5G切换成功率(%)")
      let (bucket, stats) :=
        match addAvgField bucket.interferenceSum bucket.interferenceCount (parseNumeric (getCell row ci.interference)) with
        | (s, c, added) =>
          ({ bucket with interferenceSum := s, interferenceCount := c },
           if added then stats else bumpStat stats "5G上行平均干扰(dBm)")
      { st with buckets := mapSetA st.buckets key bucket,
                invalidFieldStats := stats }

/-- Embedding of parseDataRows: builds the column index from the header
row (row 0, as the preview provides it), then folds the loop body over
every subsequent row; the header row itself is skipped and never counted
as processed. -/
def parseDataRows (dj : String → Option String) (rows : List (List String)) : ParseState :=
  let ci := buildColIndex (rows.headD [])
  (rows.drop 1).foldl (processRow dj ci) initParseState

/-- Degenerate permissive fallback that never parses; used by concrete
witnesses so that they only rely on the strict patterns. -/
def djNone : String → Option String := fun _ => none

/-- The header row of the repository test files, in canonical order. -/
def sampleHeader : List String :=
  ["时间", "CI", "网络", "小区名称", "5G总流量(GB)", "5G最大用户数",
   "5G上行PRB利用率(%)", "5G下行PRB利用率(%)", "5G上行体验速率(Mbps)",
   "5G下行体验速率(Mbps)", "5G无线接通率(%)", "5G无线掉线率(%)",
   "5G切换成功率(%)", "5G上行平均干扰(dBm)"]

/-- Conditional counter bump: the stats record is unchanged when the
field was added to the bucket, and the given counter is bumped when it
was not. -/
def bumpUnless (added : Bool) (k : String) (m : List (String × Nat)) : List (String × Nat) :=
  if added then m else bumpStat m k

/-! ### Claim C1: per-row classification of the aggregation pass -/

/-- The twelve tracked stats keys in initialisation order. -/
def trackedFieldKeys : List String :=
  ["时间", "网络",
   "5G总流量(GB)", "5G最大用户数",
   "5G上行PRB利用率(%)", "5G下行PRB利用率(%)",
   "5G上行体验速率(Mbps)", "5G下行体验速率(Mbps)",
   "5G无线接通率(%)", "5G无线掉线率(%)",
   "5G切换成功率(%)", "5G上行平均干扰(dBm)"]

/-- Behaviour of one sum-only field on a kept row: a parsed value is
added to the bucket sum and the invalid counter is untouched; a failed
parse leaves the sum unchanged and increments only that counter. -/
def sumFieldStep (oldSum newSum : ℚ) (oldStat newStat : Nat) : Option ℚ → Prop
  | some x => newSum = oldSum + x ∧ newStat = oldStat
  | none => newSum = oldSum ∧ newStat = oldStat + 1

/-- Behaviour of one averaged field on a kept row: a parsed value is
added to the sum and the observation count, the invalid counter is
untouched; a failed parse leaves sum and count unchanged and increments
only that counter. -/
def avgFieldStep (oldSum newSum oldCnt newCnt : ℚ) (oldStat newStat : Nat) : Option ℚ → Prop
  | some x => newSum = oldSum + x ∧ newCnt = oldCnt + 1 ∧ newStat = oldStat
  | none => newSum = oldSum ∧ newCnt = oldCnt ∧ newStat = oldStat + 1

/-! ### Claim C8: skippedRows is exactly the time plus network counters -/

/-- The invariant of claim C8: the skipped-row counter always equals the
sum of the time and network invalid counters. -/
def skipInvariant (st : ParseState) : Prop :=
  st.skippedRows = statAt st "时间" + statAt st "网络"

/-! ### OutputRowBuilder

The sort comparators of the source use localeCompare; the embedding
models them as code-point lexicographic order on the character list. -/

/-- Lexicographic order on character lists modelling localeCompare. -/
def charsLe : List Char → List Char → Bool
  | [], _ => true
  | _ :: _, [] => false
  | a :: as, b :: bs => if a = b then charsLe as bs else decide (a < b)

/-- Lexicographic string order modelling a non-positive localeCompare. -/
def strLe (a b : String) : Bool := charsLe a.data b.data

/-- Comparator of the bucket sort: date ascending, then network
ascending for equal dates. -/
def bucketLE (a b : AggBucket) : Bool :=
  if a.date = b.date then strLe a.network b.network else strLe a.date b.date

/-- The bucket sort order as a decidable relation. -/
def bucketLEP (a b : AggBucket) : Prop := bucketLE a b = true

/-- Comparator of the date-group entry sort (by date). -/
def entryLEP (p q : String × List AggBucket) : Prop := strLe p.1 q.1 = true

/-- Comparator of the within-group detail sort (by network). -/
def netLEP (a b : AggBucket) : Prop := strLe a.network b.network = true

instance : DecidableRel bucketLEP := fun a b => inferInstanceAs (Decidable (_ = true))

instance : DecidableRel entryLEP := fun a b => inferInstanceAs (Decidable (_ = true))

instance : DecidableRel netLEP := fun a b => inferInstanceAs (Decidable (_ = true))

/-- Embedding of the options record: each flag may be absent, and the
source decodes absence as false for the two include flags and as true
for the blank-date flag. -/
structure AggregationOutputOptions where
  includeDailySubtotalRows : Option Bool := none
  includeGrandTotalRow : Option Bool := none
  blankDateForDetailRowsWhenSubtotalEnabled : Option Bool := none
deriving DecidableEq

/-- One iteration of the byDate grouping loop: the list at the date key
of the bucket is fetched (empty when absent), the bucket is appended,
and the list is stored back. -/
def groupStep (m : List (String × List AggBucket)) (item : AggBucket) :
    List (String × List AggBucket) :=
  mapSetA m item.date ((mapGetA m item.date).getD [] ++ [item])

/-- Embedding of the byDate grouping loop of buildOutputRows. -/
def groupFold (l : List AggBucket) : List (String × List AggBucket) :=
  l.foldl groupStep []

/-- Embedding of buildOutputRows: sort the bucket values by (date,
network); without daily subtotals emit one detail row per bucket;
with daily subtotals group by date, sort the groups by date, and per
group emit the merged subtotal row followed by the detail rows sorted by
network, whose time cell is blank or repeats the date according to the
blank-date flag; a grand-total row merging every bucket is appended last
when requested. -/
def buildOutputRows (buckets : List (String × AggBucket))
    (options : AggregationOutputOptions) : List OutputRow :=
  let sortedBuckets := List.insertionSort bucketLEP (buckets.map Prod.snd)
  let includeDailySubtotalRows := options.includeDailySubtotalRows.getD false
  let includeGrandTotalRow := options.includeGrandTotalRow.getD false
  let blankDate := options.blankDateForDetailRowsWhenSubtotalEnabled.getD true
  let body :=
    if ¬ includeDailySubtotalRows then
      sortedBuckets.map (fun item => toOutputRow item none none)
    else
      ((List.insertionSort entryLEP (groupFold sortedBuckets)).map (fun e =>
        toOutputRow (e.2.foldl mergeBucket (createEmptyBucket e.1 "")) (some e.1) (some "") ::
          (List.insertionSort netLEP e.2).map (fun item =>
            toOutputRow item (some (if blankDate then "" else e.1)) (some item.network)))).flatten
  body ++
    (if includeGrandTotalRow then
      [toOutputRow (sortedBuckets.foldl mergeBucket (createEmptyBucket "" ""))
        (some GRAND_TOTAL_LABEL) (some "")]
     else [])

/-- First-occurrence deduplication with an accumulator of seen values;
structurally recursive so that concrete witnesses evaluate. -/
def dedupSeen (seen : List String) : List String → List String
  | [] => []
  | d :: rest =>
    if seen.contains d then dedupSeen seen rest
    else d :: dedupSeen (d :: seen) rest

/-- The distinct values of a list in order of first occurrence. -/
def dedupKeepFirst (l : List String) : List String := dedupSeen [] l

/-- Modelled from the spec: the subtotal-and-grand-total output shape as
the spec words it.  For every date in ascending order (the distinct
dates of the sorted bucket list), first the subtotal row (time = the
date, network blank) merging that date buckets field-wise, then that
date detail rows sorted by network with the time cell blank or the date
according to the blank-date flag; and exactly one grand-total row
appended last, with the grand-total label, a blank network, and the
merge of every bucket. -/
def buildOutputRowsSpecSubtotals (blankDate : Bool) (bs : List AggBucket) : List OutputRow :=
  let sorted := List.insertionSort bucketLEP bs
  let dates := dedupKeepFirst (sorted.map (fun b => b.date))
  ((dates.map fun d =>
      let group := sorted.filter (fun b => b.date = d)
      toOutputRow (group.foldl mergeBucket (createEmptyBucket d "")) (some d) (some "") ::
        group.map (fun it =>
          toOutputRow it (some (if blankDate then "" else d)) (some it.network))).flatten)
  ++ [toOutputRow (sorted.foldl mergeBucket (createEmptyBucket "" ""))
      (some GRAND_TOTAL_LABEL) (some "")]

/-- First-occurrence deduplication in filtering form; used only inside
proofs to relate the grouping loop to the spec form. -/
def keepFirstFilter : List String → List String
  | [] => []
  | d :: rest => d :: keepFirstFilter (rest.filter (fun x => ¬ x = d))
termination_by l => l.length
decreasing_by
  simpa using Nat.lt_succ_of_le (List.length_filter_le _ rest)

/-- Closed recursive form of the grouping loop; used only inside
proofs. -/
def groupPure : List AggBucket → List (String × List AggBucket)
  | [] => []
  | b :: rest =>
    (b.date, b :: rest.filter (fun x => x.date = b.date)) ::
      groupPure (rest.filter (fun x => ¬ x.date = b.date))
termination_by l => l.length
decreasing_by
  simpa using Nat.lt_succ_of_le (List.length_filter_le _ rest)

/-- The bucket state of the Scenario D test file of the repository. -/
def sheetStyleBuckets : List (String × AggBucket) :=
  (parseDataRows djNone
    [sampleHeader,
     ["2025-12-01 01:00:00", "ci1", "5G-2.6G", "A", "100", "50", "70", "80", "60", "120", "99.9", "0.1", "98", "-110"],
     ["2025-12-01 02:00:00", "ci2", "5G-2.6G", "B", "78.12", "29", "72", "84", "64", "122", "99.8", "0.2", "97", "-108"],
     ["2025-12-01 03:00:00", "ci3", "5G-700M", "C", "0.78", "6", "76", "86", "66", "124", "99.7", "0.3", "96", "-107"],
     ["2025-12-02 01:00:00", "ci4", "5G-2.6G", "D", "179.12", "80", "73", "83", "63", "123", "99.6", "0.4", "95", "-106"],
     ["2025-12-02 02:00:00", "ci5", "5G-700M", "E", "1.78", "7", "77", "87", "67", "125", "99.5", "0.5", "94", "-105"]]).buckets

/-! ### OutputWriter path selection

The node:path helpers are modelled for POSIX-style paths: the last
segment follows the last slash, the extension is the suffix from the
last dot of that segment unless the dot is its first character, and
join concatenates with a slash (a current-directory dir is dropped, as
path normalization does).  The filesystem existsSync checks are
modelled by an explicit predicate fs, and Date.now by an explicit
timestamp argument now. -/

/-- The last path segment (basename without extension removal). -/
def lastSegment (p : String) : String :=
  ⟨(p.data.reverse.takeWhile (fun c => ¬ c = '/')).reverse⟩

/-- Model of path.dirname for POSIX-style paths. -/
def dirname (p : String) : String :=
  match p.data.reverse.dropWhile (fun c => ¬ c = '/') with
  | [] => "."
  | [_] => "/"
  | _ :: rs => ⟨rs.reverse⟩

/-- Model of path.extname: the suffix of the last segment from its last
dot, empty when there is no dot or the only dot is leading. -/
def extname (p : String) : String :=
  let nm := (lastSegment p).data
  let revAfter := nm.reverse.takeWhile (fun c => ¬ c = '.')
  if nm.length - 1 ≤ revAfter.length then ""
  else ⟨'.' :: revAfter.reverse⟩

/-- Model of path.basename with an extension argument: the last segment
with the extension removed when it is a proper suffix. -/
def basenameExt (p ext : String) : String :=
  let nm := (lastSegment p).data
  if ¬ ext.data.isEmpty ∧ ext.data.isSuffixOf nm ∧ ext.data.length < nm.length then
    ⟨nm.take (nm.length - ext.data.length)⟩
  else ⟨nm⟩

/-- Model of path.join for one directory and one file name. -/
def pathJoin (dir name : String) : String :=
  if dir = "." then name else dir ++ "/" ++ name

/-- Embedding of getOutputBasePath: directory, extension (falling back
to .csv when absent) and extension-free file name of the input path. -/
def getOutputBasePath (inputPath : String) : String × String × String :=
  let dir := dirname inputPath
  let ext := if extname inputPath = "" then ".csv" else extname inputPath
  let fileName := basenameExt inputPath (extname inputPath)
  (dir, ext, fileName)

/-- An output candidate name: the base name, the -统计 suffix, an
optional tag, and the extension, joined onto the input directory. -/
def outputCandidate (inputPath : String) (tag : String) : String :=
  let (dir, ext, fileName) := getOutputBasePath inputPath
  pathJoin dir (fileName ++ "-统计" ++ tag ++ ext)

/-- The first output path tried: base name with the -统计 suffix. -/
def firstOutputPath (inputPath : String) : String := outputCandidate inputPath ""

/-- A numbered output candidate with the (N) disambiguator. -/
def numberedOutputPath (inputPath : String) (i : Nat) : String :=
  outputCandidate inputPath ("(" ++ toString i ++ ")")

/-- Embedding of getNextAvailableOutputPath: the base name when free,
else the first free numbered candidate for indices 1 to 9999, else the
timestamp-suffixed fallback, which the source returns without a final
existence check. -/
def getNextAvailableOutputPath (fs : String → Bool) (now : Nat) (inputPath : String) :
    String :=
  let firstPath := firstOutputPath inputPath
  if ¬ fs firstPath then firstPath
  else
    match (List.range' 1 9999).find? (fun i => ¬ fs (numberedOutputPath inputPath i)) with
    | some i => numberedOutputPath inputPath i
    | none => numberedOutputPath inputPath now

/-! ### Theorems and checks -/

/-! Sanity checks of the value parsers on the inputs exercised by the
repository test-suite. -/

example : parseNumeric (some "1,234.56") = some (123456 / 100) := by decide
example : parseNumeric (some "88.8%") = some (888 / 10) := by decide
example : parseNumeric (some "") = none := by decide
example : parseNumeric (some "abc") = none := by decide
example : parseNumeric (some " -110 ") = some (-110) := by decide
example : parseNumeric (some "1e2") = some 100 := by decide
example : parseNumeric (some "Infinity") = none := by decide
example : formatNumber (888 / 10) = "88.8" := by decide
example : formatNumber (1 / 3 : ℚ) = "0.333333" := by decide
example : formatAverage 10 0 = "" := by decide
example : formatAverage 10 4 = "2.5" := by decide

/-! ### Helper lemmas about mergeBucket -/

theorem mergeBucket_right_comm (s a b : AggBucket) :
    mergeBucket (mergeBucket s a) b = mergeBucket (mergeBucket s b) a := by
  simp only [mergeBucket]
  ext <;> simp <;> ring

theorem foldl_mergeBucket_perm {l₁ l₂ : List AggBucket} (p : l₁.Perm l₂) (init : AggBucket) :
    l₁.foldl mergeBucket init = l₂.foldl mergeBucket init :=
  p.foldl_eq' (fun x _ y _ z => mergeBucket_right_comm z x y) init

theorem filter_comma_percent (l : List Char) :
    List.filter (fun x => x ≠ '%') (List.filter (fun x => x ≠ ',') l) =
      List.filter (fun c => ¬ (c = ',' ∨ c = '%')) l := by
  rw [List.filter_filter]
  apply List.filter_congr
  intro a _
  by_cases h1 : a = ',' <;> by_cases h2 : a = '%' <;> simp [h1, h2]

/-- C5 (counterexample): the claim says parseNumeric strips only
trailing percent signs; on the input 8%8 the source strips the interior
percent sign as well and parses 88, while the trailing-only reading
yields null. -/
theorem parseNumeric_trailing_percent_counterexample :
    parseNumeric (some "8%8") = some 88 ∧
    parseNumericTrailingPercent (some "8%8") = none ∧
    parseNumeric (some "8%8") ≠ parseNumericTrailingPercent (some "8%8") := by
  refine ⟨by decide, by decide, by decide⟩

/-- C5 (amended): parseNumeric trims its input, strips every comma and
every percent sign wherever they occur, returns null on an empty or
non-numeric remainder, and otherwise returns the literal numeric value;
a percent value is never divided by 100, so 88.8% parses to 88.8 and not
to 0.888. -/
theorem parseNumeric_spec :
    (∀ v : Option String, parseNumeric v = parseNumericGlobalStrip v) ∧
    parseNumeric (some "88.8%") = some (888 / 10) ∧
    parseNumeric (some "88.8%") ≠ some (888 / 1000) := by
  refine ⟨?_, by decide, by decide⟩
  intro v
  cases v with
  | none => rfl
  | some s =>
    simp only [parseNumeric, parseNumericGlobalStrip, removeAllChar]
    rw [filter_comma_percent]

/-- C6: mergeBucket is associative, commutative on every numeric sum and
count field, and folding any permutation of a collection of buckets into
a fixed initial subtotal bucket produces the same result, so any merge
order yields the identical subtotal. -/
theorem mergeBucket_assoc_comm :
    (∀ a b c : AggBucket, mergeBucket (mergeBucket a b) c = mergeBucket a (mergeBucket b c)) ∧
    (∀ a b : AggBucket, numericFields (mergeBucket a b) = numericFields (mergeBucket b a)) ∧
    (∀ (init : AggBucket) (l₁ l₂ : List AggBucket), l₁.Perm l₂ →
      l₁.foldl mergeBucket init = l₂.foldl mergeBucket init) := by
  refine ⟨?_, ?_, ?_⟩
  · intro a b c
    simp only [mergeBucket]
    ext <;> simp <;> ring
  · intro a b
    simp [mergeBucket, numericFields, add_comm]
  · intro init l₁ l₂ p
    exact foldl_mergeBucket_perm p init

/-- Closed witness for C6: merging the two sample buckets in either
order into an empty subtotal bucket gives the same bucket. -/
theorem mergeBucket_assoc_comm_witness :
    [sampleBucketA, sampleBucketB].foldl mergeBucket (createEmptyBucket "2025-01-01" "") =
      [sampleBucketB, sampleBucketA].foldl mergeBucket (createEmptyBucket "2025-01-01" "") :=
  mergeBucket_assoc_comm.2.2 (createEmptyBucket "2025-01-01" "")
    [sampleBucketA, sampleBucketB] [sampleBucketB, sampleBucketA] (by decide)

/-! ### Claim C7: averages over zero observations render empty -/

/-- C7: whenever the valid-observation count of an averaged field is
zero or negative, formatAverage returns the empty string, and hence each
averaged cell written by toOutputRow for such a field is the empty
string, never the string 0 and never the string NaN. -/
theorem formatAverage_empty_on_no_observations (sum count : ℚ) (h : count ≤ 0)
    (b : AggBucket) (dv nv : Option String) :
    formatAverage sum count = "" ∧ formatAverage sum count ≠ "0" ∧
    formatAverage sum count ≠ "NaN" ∧
    (b.ulPrbCount ≤ 0 → (toOutputRow b dv nv).ulPrb = "") ∧
    (b.dlPrbCount ≤ 0 → (toOutputRow b dv nv).dlPrb = "") ∧
    (b.ulRateCount ≤ 0 → (toOutputRow b dv nv).ulRate = "") ∧
    (b.dlRateCount ≤ 0 → (toOutputRow b dv nv).dlRate = "") ∧
    (b.accessRateCount ≤ 0 → (toOutputRow b dv nv).accessRate = "") ∧
    (b.dropRateCount ≤ 0 → (toOutputRow b dv nv).dropRate = "") ∧
    (b.handoverRateCount ≤ 0 → (toOutputRow b dv nv).handoverRate = "") ∧
    (b.interferenceCount ≤ 0 → (toOutputRow b dv nv).interference = "") := by
  refine ⟨by simp [formatAverage, h], by simp [formatAverage, h], by simp [formatAverage, h],
    ?_, ?_, ?_, ?_, ?_, ?_, ?_, ?_⟩ <;>
    · intro hc
      simp [toOutputRow, formatAverage, hc]

/-- Closed witness for C7 at count zero: the empty bucket renders every
averaged cell as the empty string. -/
theorem formatAverage_empty_witness :
    formatAverage 7 0 = "" ∧
    (toOutputRow (createEmptyBucket "2025-01-01" "NSA") none none).ulPrb = "" := by
  have h := formatAverage_empty_on_no_observations 7 0 (by norm_num)
    (createEmptyBucket "2025-01-01" "NSA") none none
  exact ⟨h.1, h.2.2.2.1 (by norm_num [createEmptyBucket])⟩

example : parseDateToDay djNone "2025-01-01 12:20:11" = some "2025-01-01" := by decide
example : parseDateToDay djNone "2025/01/02" = some "2025-01-02" := by decide
example : parseDateToDay djNone "20250103" = some "2025-01-03" := by decide
example : parseDateToDay djNone "not-a-date" = none := by decide
example : parseDateToDay djNone "2025-13-01" = none := by decide
example : parseDateToDay djNone "" = none := by decide
example : normalizeHeader " 5G上行PRB利用率（%）  " = "5G上行PRB利用率(%)" := by decide
example : (buildColIndex sampleHeader).network = 2 := by decide

example :
    (parseDataRows djNone
      [sampleHeader,
       ["not-a-date", "ci1", "NSA", "A", "10", "100", "20", "30", "40", "50", "99.9", "0.1", "95", "-110"],
       ["2025-01-01 01:00:00", "ci2", "", "B", "11", "101", "21", "31", "41", "51", "98.9", "0.2", "94", "-109"],
       ["2025-01-01 01:00:00", "ci3", "NSA", "C", "abc", "xyz", "xx", "30", "40", "50", "99.9", "0.1", "95", "-110"]]).processedRows = 3 := by
  decide

example :
    (parseDataRows djNone
      [sampleHeader,
       ["not-a-date", "ci1", "NSA", "A", "10", "100", "20", "30", "40", "50", "99.9", "0.1", "95", "-110"],
       ["2025-01-01 01:00:00", "ci2", "", "B", "11", "101", "21", "31", "41", "51", "98.9", "0.2", "94", "-109"],
       ["2025-01-01 01:00:00", "ci3", "NSA", "C", "abc", "xyz", "xx", "30", "40", "50", "99.9", "0.1", "95", "-110"]]).skippedRows = 2 := by
  decide

/-! ### Analysis lemmas for the row loop -/

theorem addSumField_eq (sum : ℚ) (v : Option ℚ) :
    addSumField sum v = (sum + v.getD 0, v.isSome) := by
  cases v <;> simp [addSumField]

theorem addAvgField_eq (sum count : ℚ) (v : Option ℚ) :
    addAvgField sum count v =
      (sum + v.getD 0, count + (if v.isSome then 1 else 0), v.isSome) := by
  cases v <;> simp [addAvgField]

theorem mapGetA_cons {α : Type} (a : String) (v : α) (rest : List (String × α)) (k : String) :
    mapGetA ((a, v) :: rest) k = if a = k then some v else mapGetA rest k := by
  by_cases h : a = k <;> simp [mapGetA, List.find?, h]

theorem bumpStat_cons (a : String) (n : Nat) (rest : List (String × Nat)) (k : String) :
    bumpStat ((a, n) :: rest) k =
      (if a = k then (a, n + 1) else (a, n)) :: bumpStat rest k := rfl

theorem mapGetA_bumpStat (m : List (String × Nat)) (k k' : String) :
    mapGetA (bumpStat m k) k' =
      if k' = k then (mapGetA m k').map (fun n => n + 1) else mapGetA m k' := by
  induction m with
  | nil => by_cases h : k' = k <;> simp [mapGetA, bumpStat, h]
  | cons p rest ih =>
    obtain ⟨a, n⟩ := p
    rw [bumpStat_cons]
    rcases eq_or_ne a k with hak | hak
    · subst hak
      rw [if_pos rfl]
      rcases eq_or_ne k' a with hk' | hk'
      · subst hk'
        simp [mapGetA_cons]
      · have h1 : a ≠ k' := fun h => hk' h.symm
        simp only [mapGetA_cons, if_neg h1, ih, if_neg hk']
    · rw [if_neg hak]
      rcases eq_or_ne a k' with hak' | hak'
      · subst hak'
        have h2 : ¬ a = k := hak
        simp [mapGetA_cons, h2]
      · simp only [mapGetA_cons, if_neg hak', ih]

theorem statOf_bump_ne (m : List (String × Nat)) (k k' : String) (h : k' ≠ k) :
    statOf (bumpStat m k) k' = statOf m k' := by
  simp [statOf, mapGetA_bumpStat, h]

theorem mapGetA_isSome_of_mem_keys {α : Type} (m : List (String × α)) (k : String)
    (h : k ∈ m.map Prod.fst) : (mapGetA m k).isSome := by
  induction m with
  | nil => simp at h
  | cons p rest ih =>
    by_cases hp : p.1 = k
    · simp [mapGetA, List.find?, hp]
    · simp only [List.map_cons, List.mem_cons] at h
      rcases h with h | h
      · exact absurd h.symm hp
      · simpa [mapGetA, List.find?, hp] using ih h

theorem statOf_bump_self (m : List (String × Nat)) (k : String)
    (h : k ∈ m.map Prod.fst) : statOf (bumpStat m k) k = statOf m k + 1 := by
  obtain ⟨v, hv⟩ := Option.isSome_iff_exists.mp (mapGetA_isSome_of_mem_keys m k h)
  simp [statOf, mapGetA_bumpStat, hv]

theorem statOf_ite (c : Prop) [Decidable c] (a b : List (String × Nat)) (k : String) :
    statOf (if c then a else b) k = if c then statOf a k else statOf b k :=
  apply_ite (fun m => statOf m k) c a b

theorem bumpUnless_true (k : String) (m : List (String × Nat)) :
    bumpUnless true k m = m := rfl

theorem bumpUnless_false (k : String) (m : List (String × Nat)) :
    bumpUnless false k m = bumpStat m k := rfl

theorem statOf_bumpUnless_ne (added : Bool) (k k' : String) (m : List (String × Nat))
    (h : k' ≠ k) : statOf (bumpUnless added k m) k' = statOf m k' := by
  cases added <;> simp [bumpUnless, statOf_bump_ne _ _ _ h]

theorem statOf_bumpUnless_self (added : Bool) (k : String) (m : List (String × Nat))
    (h : k ∈ m.map Prod.fst) :
    statOf (bumpUnless added k m) k = if added then statOf m k else statOf m k + 1 := by
  cases added <;> simp [bumpUnless, statOf_bump_self _ _ h]

/-- Keys of a stats record are untouched by bumpStat. -/
theorem keys_bumpStat (m : List (String × Nat)) (k : String) :
    (bumpStat m k).map Prod.fst = m.map Prod.fst := by
  induction m with
  | nil => rfl
  | cons p rest ih =>
    by_cases hp : p.1 = k <;> simp [bumpStat, hp] at ih ⊢ <;> simp_all [bumpStat]

/-- Keys of a stats record are untouched by bumpUnless. -/
theorem keys_bumpUnless (added : Bool) (k : String) (m : List (String × Nat)) :
    (bumpUnless added k m).map Prod.fst = m.map Prod.fst := by
  cases added <;> simp [bumpUnless, keys_bumpStat]

/-- Branch of the loop body taken on an unparsable time field: exactly
the time counter and skippedRows are incremented, nothing else changes. -/
theorem processRow_skip_time (dj : String → Option String) (ci : ColIndex)
    (st : ParseState) (row : List String)
    (h : parseDateToDay dj ((getCell row ci.time).getD "") = none) :
    processRow dj ci st row =
      { st with processedRows := st.processedRows + 1,
                skippedRows := st.skippedRows + 1,
                invalidFieldStats := bumpStat st.invalidFieldStats "时间" } := by
  simp only [processRow, h]

/-- Branch of the loop body taken on an empty trimmed network field:
exactly the network counter and skippedRows are incremented. -/
theorem processRow_skip_network (dj : String → Option String) (ci : ColIndex)
    (st : ParseState) (row : List String) (day : String)
    (hday : parseDateToDay dj ((getCell row ci.time).getD "") = some day)
    (hnet : jsTrim ((getCell row ci.network).getD "") = "") :
    processRow dj ci st row =
      { st with processedRows := st.processedRows + 1,
                skippedRows := st.skippedRows + 1,
                invalidFieldStats := bumpStat st.invalidFieldStats "网络" } := by
  simp only [processRow, hday, hnet, if_pos]

/-- Normal form of the loop body on a row that is kept: the bucket at
the (day, network) key receives each of the ten fields independently and
each invalid counter is bumped exactly when its field failed to parse. -/
theorem processRow_keep (dj : String → Option String) (ci : ColIndex)
    (st : ParseState) (row : List String) (day : String)
    (hday : parseDateToDay dj ((getCell row ci.time).getD "") = some day)
    (hnet : jsTrim ((getCell row ci.network).getD "") ≠ "") :
    processRow dj ci st row =
      (let net := jsTrim ((getCell row ci.network).getD "")
       let key := day ++ "__" ++ net
       let b0 := (mapGetA st.buckets key).getD (createEmptyBucket day net)
       let vFlow := parseNumeric (getCell row ci.flow)
       let vMaxUser := parseNumeric (getCell row ci.maxUser)
       let vUlPrb := parseNumeric (getCell row ci.ulPrb)
       let vDlPrb := parseNumeric (getCell row ci.dlPrb)
       let vUlRate := parseNumeric (getCell row ci.ulRate)
       let vDlRate := parseNumeric (getCell row ci.dlRate)
       let vAccessRate := parseNumeric (getCell row ci.accessRate)
       let vDropRate := parseNumeric (getCell row ci.dropRate)
       let vHandoverRate := parseNumeric (getCell row ci.handoverRate)
       let vInterference := parseNumeric (getCell row ci.interference)
       { st with
         processedRows := st.processedRows + 1,
         buckets := mapSetA st.buckets key
           { b0 with
             flowSum := b0.flowSum + vFlow.getD 0,
             maxUserSum := b0.maxUserSum + vMaxUser.getD 0,
             ulPrbSum := b0.ulPrbSum + vUlPrb.getD 0,
             ulPrbCount := b0.ulPrbCount + (if vUlPrb.isSome then 1 else 0),
             dlPrbSum := b0.dlPrbSum + vDlPrb.getD 0,
             dlPrbCount := b0.dlPrbCount + (if vDlPrb.isSome then 1 else 0),
             ulRateSum := b0.ulRateSum + vUlRate.getD 0,
             ulRateCount := b0.ulRateCount + (if vUlRate.isSome then 1 else 0),
             dlRateSum := b0.dlRateSum + vDlRate.getD 0,
             dlRateCount := b0.dlRateCount + (if vDlRate.isSome then 1 else 0),
             accessRateSum := b0.accessRateSum + vAccessRate.getD 0,
             accessRateCount := b0.accessRateCount + (if vAccessRate.isSome then 1 else 0),
             dropRateSum := b0.dropRateSum + vDropRate.getD 0,
             dropRateCount := b0.dropRateCount + (if vDropRate.isSome then 1 else 0),
             handoverRateSum := b0.handoverRateSum + vHandoverRate.getD 0,
             handoverRateCount := b0.handoverRateCount + (if vHandoverRate.isSome then 1 else 0),
             interferenceSum := b0.interferenceSum + vInterference.getD 0,
             interferenceCount := b0.interferenceCount + (if vInterference.isSome then 1 else 0) },
         invalidFieldStats :=
           bumpUnless vInterference.isSome "5G上行平均干扰(dBm)"
            (bumpUnless vHandoverRate.isSome "5G切换成功率(%)"
             (bumpUnless vDropRate.isSome "5G无线掉线率(%)"
              (bumpUnless vAccessRate.isSome "5G无线接通率(%)"
               (bumpUnless vDlRate.isSome "5G下行体验速率(Mbps)"
                (bumpUnless vUlRate.isSome "5G上行体验速率(Mbps)"
                 (bumpUnless vDlPrb.isSome "5G下行PRB利用率(%)"
                  (bumpUnless vUlPrb.isSome "5G上行PRB利用率(%)"
                   (bumpUnless vMaxUser.isSome "5G最大用户数"
                    (bumpUnless vFlow.isSome "5G总流量(GB)"
                     st.invalidFieldStats))))))))) }) := by
  simp only [processRow, hday, if_neg hnet, addSumField_eq, addAvgField_eq, bumpUnless]

/-- C1: every data row increments processedRows; a row whose time field
yields no day is skipped wholesale, incrementing exactly the time
counter and skippedRows and touching no bucket; a row with a day but an
empty trimmed network is skipped wholesale, incrementing exactly the
network counter and skippedRows; every other row is kept, skippedRows
and the time and network counters are untouched, and each of the ten
numeric fields independently either adds its parsed value to the (day,
network) bucket or increments only that field made invalid counter. -/
theorem processRow_row_classification (dj : String → Option String) (ci : ColIndex)
    (st : ParseState) (row : List String)
    (hkeys : st.invalidFieldStats.map Prod.fst = trackedFieldKeys) :
    ((processRow dj ci st row).processedRows = st.processedRows + 1) ∧
    (parseDateToDay dj ((getCell row ci.time).getD "") = none →
      processRow dj ci st row =
        { st with processedRows := st.processedRows + 1,
                  skippedRows := st.skippedRows + 1,
                  invalidFieldStats := bumpStat st.invalidFieldStats "时间" }) ∧
    (∀ day : String, parseDateToDay dj ((getCell row ci.time).getD "") = some day →
      jsTrim ((getCell row ci.network).getD "") = "" →
      processRow dj ci st row =
        { st with processedRows := st.processedRows + 1,
                  skippedRows := st.skippedRows + 1,
                  invalidFieldStats := bumpStat st.invalidFieldStats "网络" }) ∧
    (∀ day : String, parseDateToDay dj ((getCell row ci.time).getD "") = some day →
      jsTrim ((getCell row ci.network).getD "") ≠ "" →
      (processRow dj ci st row).skippedRows = st.skippedRows ∧
      statAt (processRow dj ci st row) "时间" = statAt st "时间" ∧
      statAt (processRow dj ci st row) "网络" = statAt st "网络" ∧
      ∃ b : AggBucket,
        (processRow dj ci st row).buckets =
          mapSetA st.buckets (day ++ "__" ++ jsTrim ((getCell row ci.network).getD "")) b ∧
        (let b0 := (mapGetA st.buckets
            (day ++ "__" ++ jsTrim ((getCell row ci.network).getD ""))).getD
            (createEmptyBucket day (jsTrim ((getCell row ci.network).getD "")))
         sumFieldStep b0.flowSum b.flowSum (statAt st "5G总流量(GB)")
            (statAt (processRow dj ci st row) "5G总流量(GB)")
            (parseNumeric (getCell row ci.flow)) ∧
         sumFieldStep b0.maxUserSum b.maxUserSum (statAt st "5G最大用户数")
            (statAt (processRow dj ci st row) "5G最大用户数")
            (parseNumeric (getCell row ci.maxUser)) ∧
         avgFieldStep b0.ulPrbSum b.ulPrbSum b0.ulPrbCount b.ulPrbCount
            (statAt st "5G上行PRB利用率(%)")
            (statAt (processRow dj ci st row) "5G上行PRB利用率(%)")
            (parseNumeric (getCell row ci.ulPrb)) ∧
         avgFieldStep b0.dlPrbSum b.dlPrbSum b0.dlPrbCount b.dlPrbCount
            (statAt st "5G下行PRB利用率(%)")
            (statAt (processRow dj ci st row) "5G下行PRB利用率(%)")
            (parseNumeric (getCell row ci.dlPrb)) ∧
         avgFieldStep b0.ulRateSum b.ulRateSum b0.ulRateCount b.ulRateCount
            (statAt st "5G上行体验速率(Mbps)")
            (statAt (processRow dj ci st row) "5G上行体验速率(Mbps)")
            (parseNumeric (getCell row ci.ulRate)) ∧
         avgFieldStep b0.dlRateSum b.dlRateSum b0.dlRateCount b.dlRateCount
            (statAt st "5G下行体验速率(Mbps)")
            (statAt (processRow dj ci st row) "5G下行体验速率(Mbps)")
            (parseNumeric (getCell row ci.dlRate)) ∧
         avgFieldStep b0.accessRateSum b.accessRateSum b0.accessRateCount b.accessRateCount
            (statAt st "5G无线接通率(%)")
            (statAt (processRow dj ci st row) "5G无线接通率(%)")
            (parseNumeric (getCell row ci.accessRate)) ∧
         avgFieldStep b0.dropRateSum b.dropRateSum b0.dropRateCount b.dropRateCount
            (statAt st "5G无线掉线率(%)")
            (statAt (processRow dj ci st row) "5G无线掉线率(%)")
            (parseNumeric (getCell row ci.dropRate)) ∧
         avgFieldStep b0.handoverRateSum b.handoverRateSum b0.handoverRateCount b.handoverRateCount
            (statAt st "5G切换成功率(%)")
            (statAt (processRow dj ci st row) "5G切换成功率(%)")
            (parseNumeric (getCell row ci.handoverRate)) ∧
         avgFieldStep b0.interferenceSum b.interferenceSum b0.interferenceCount b.interferenceCount
            (statAt st "5G上行平均干扰(dBm)")
            (statAt (processRow dj ci st row) "5G上行平均干扰(dBm)")
            (parseNumeric (getCell row ci.interference)))) := by
  refine ⟨?_, ?_, ?_, ?_⟩
  · rcases hday : parseDateToDay dj ((getCell row ci.time).getD "") with _ | day
    · rw [processRow_skip_time dj ci st row hday]
    · by_cases hnet : jsTrim ((getCell row ci.network).getD "") = ""
      · rw [processRow_skip_network dj ci st row day hday hnet]
      · rw [processRow_keep dj ci st row day hday hnet]
  · intro h
    exact processRow_skip_time dj ci st row h
  · intro day h hnet
    exact processRow_skip_network dj ci st row day h hnet
  · intro day hday hnet
    rw [processRow_keep dj ci st row day hday hnet]
    refine ⟨rfl, ?_, ?_, ?_⟩
    · simp [statAt, statOf_bumpUnless_ne]
    · simp [statAt, statOf_bumpUnless_ne]
    · refine ⟨_, rfl, ?_⟩
      intro b0
      refine ⟨?_, ?_, ?_, ?_, ?_, ?_, ?_, ?_, ?_, ?_⟩ <;>
        [rcases hv : parseNumeric (getCell row ci.flow) with _ | x;
         rcases hv : parseNumeric (getCell row ci.maxUser) with _ | x;
         rcases hv : parseNumeric (getCell row ci.ulPrb) with _ | x;
         rcases hv : parseNumeric (getCell row ci.dlPrb) with _ | x;
         rcases hv : parseNumeric (getCell row ci.ulRate) with _ | x;
         rcases hv : parseNumeric (getCell row ci.dlRate) with _ | x;
         rcases hv : parseNumeric (getCell row ci.accessRate) with _ | x;
         rcases hv : parseNumeric (getCell row ci.dropRate) with _ | x;
         rcases hv : parseNumeric (getCell row ci.handoverRate) with _ | x;
         rcases hv : parseNumeric (getCell row ci.interference) with _ | x] <;>
        simp [sumFieldStep, avgFieldStep, hv, statAt, statOf_bumpUnless_ne,
          bumpUnless_true, bumpUnless_false, statOf_bump_self, keys_bumpUnless,
          hkeys, trackedFieldKeys]

/-- Closed witness for C1: the classification applied to a concrete row
with an unparsable time field, taken from the repository test data. -/
theorem processRow_row_classification_witness :
    processRow djNone (buildColIndex sampleHeader) initParseState
      ["not-a-date", "ci1", "NSA", "A", "10", "100", "20", "30", "40", "50",
       "99.9", "0.1", "95", "-110"] =
      { initParseState with
        processedRows := initParseState.processedRows + 1,
        skippedRows := initParseState.skippedRows + 1,
        invalidFieldStats := bumpStat initParseState.invalidFieldStats "时间" } :=
  (processRow_row_classification djNone (buildColIndex sampleHeader) initParseState
    ["not-a-date", "ci1", "NSA", "A", "10", "100", "20", "30", "40", "50",
     "99.9", "0.1", "95", "-110"] rfl).2.1 (by decide)

theorem processRow_keys (dj : String → Option String) (ci : ColIndex)
    (st : ParseState) (row : List String) :
    (processRow dj ci st row).invalidFieldStats.map Prod.fst =
      st.invalidFieldStats.map Prod.fst := by
  rcases hday : parseDateToDay dj ((getCell row ci.time).getD "") with _ | day
  · rw [processRow_skip_time dj ci st row hday]
    simp [keys_bumpStat]
  · by_cases hnet : jsTrim ((getCell row ci.network).getD "") = ""
    · rw [processRow_skip_network dj ci st row day hday hnet]
      simp [keys_bumpStat]
    · rw [processRow_keep dj ci st row day hday hnet]
      simp [keys_bumpUnless]

theorem processRow_skipInvariant (dj : String → Option String) (ci : ColIndex)
    (st : ParseState) (row : List String)
    (hkeys : st.invalidFieldStats.map Prod.fst = trackedFieldKeys)
    (h : skipInvariant st) : skipInvariant (processRow dj ci st row) := by
  have m1 : "时间" ∈ st.invalidFieldStats.map Prod.fst := by rw [hkeys]; decide
  have m2 : "网络" ∈ st.invalidFieldStats.map Prod.fst := by rw [hkeys]; decide
  unfold skipInvariant statAt at h ⊢
  rcases hday : parseDateToDay dj ((getCell row ci.time).getD "") with _ | day
  · rw [processRow_skip_time dj ci st row hday]
    dsimp only
    rw [statOf_bump_self _ _ m1, statOf_bump_ne _ _ _ (by decide)]
    omega
  · by_cases hnet : jsTrim ((getCell row ci.network).getD "") = ""
    · rw [processRow_skip_network dj ci st row day hday hnet]
      dsimp only
      rw [statOf_bump_self _ _ m2, statOf_bump_ne _ _ _ (by decide)]
      omega
    · rw [processRow_keep dj ci st row day hday hnet]
      dsimp only
      simp [statOf_bumpUnless_ne]
      exact h

theorem foldl_processRow_keys (dj : String → Option String) (ci : ColIndex)
    (l : List (List String)) (st : ParseState) :
    ((l.foldl (processRow dj ci) st).invalidFieldStats.map Prod.fst) =
      st.invalidFieldStats.map Prod.fst := by
  induction l generalizing st with
  | nil => rfl
  | cons r rest ih =>
    rw [List.foldl_cons, ih, processRow_keys]

theorem foldl_processRow_skipInvariant (dj : String → Option String) (ci : ColIndex)
    (l : List (List String)) (st : ParseState)
    (hkeys : st.invalidFieldStats.map Prod.fst = trackedFieldKeys)
    (h : skipInvariant st) : skipInvariant (l.foldl (processRow dj ci) st) := by
  induction l generalizing st with
  | nil => exact h
  | cons r rest ih =>
    rw [List.foldl_cons]
    exact ih (processRow dj ci st r)
      ((processRow_keys dj ci st r).trans hkeys)
      (processRow_skipInvariant dj ci st r hkeys h)

/-- C8: the invariant skippedRows = time counter + network counter holds
initially, is preserved by every loop iteration, holds at every
intermediate point of the pass (after any prefix of the data rows) and
therefore holds of the final state of parseDataRows; the two counters
are incremented exactly when a row is counted as skipped. -/
theorem skippedRows_eq_time_plus_network (dj : String → Option String) (ci : ColIndex) :
    skipInvariant initParseState ∧
    (∀ st row, st.invalidFieldStats.map Prod.fst = trackedFieldKeys →
      skipInvariant st → skipInvariant (processRow dj ci st row)) ∧
    (∀ rows pre post : List (List String), rows.drop 1 = pre ++ post →
      skipInvariant
        (pre.foldl (processRow dj (buildColIndex (rows.headD []))) initParseState)) ∧
    (∀ rows : List (List String), skipInvariant (parseDataRows dj rows)) := by
  refine ⟨by unfold skipInvariant; rfl, ?_, ?_, ?_⟩
  · intro st row hkeys h
    exact processRow_skipInvariant dj ci st row hkeys h
  · intro rows pre post hsplit
    exact foldl_processRow_skipInvariant dj _ pre initParseState rfl
      (by unfold skipInvariant; rfl)
  · intro rows
    exact foldl_processRow_skipInvariant dj _ (rows.drop 1) initParseState rfl
      (by unfold skipInvariant; rfl)

/-- Closed witness for C8 on the concrete dirty test file: one time
failure and one network failure give skippedRows two, equal to the sum
of the two counters. -/
theorem skippedRows_eq_time_plus_network_witness :
    skipInvariant
      (parseDataRows djNone
        [sampleHeader,
         ["not-a-date", "ci1", "NSA", "A", "10", "100", "20", "30", "40", "50",
          "99.9", "0.1", "95", "-110"],
         ["2025-01-01 01:00:00", "ci2", "", "B", "11", "101", "21", "31", "41",
          "51", "98.9", "0.2", "94", "-109"]]) :=
  (skippedRows_eq_time_plus_network djNone (buildColIndex sampleHeader)).2.2.2
    [sampleHeader,
     ["not-a-date", "ci1", "NSA", "A", "10", "100", "20", "30", "40", "50",
      "99.9", "0.1", "95", "-110"],
     ["2025-01-01 01:00:00", "ci2", "", "B", "11", "101", "21", "31", "41",
      "51", "98.9", "0.2", "94", "-109"]]

/-! ### Claim C9: short rows are handled like unparsable cells -/

theorem getCell_none (row : List String) (i : Int)
    (h : i < 0 ∨ (row.length : Int) ≤ i) : getCell row i = none := by
  unfold getCell
  rw [dif_neg]
  rintro ⟨h0, hlt⟩
  rcases h with h | h <;> omega

/-- C9: an absent cell reads as undefined (none), parseNumeric of an
absent cell is null, and a data row shorter than every numeric column
index is processed rather than aborted: the row still counts as
processed, is not skipped, its bucket is created or left unchanged with
no numeric contribution, and every numeric-field invalid counter is
incremented, exactly as for a row whose ten cells fail to parse. -/
theorem short_rows_never_abort (dj : String → Option String) (ci : ColIndex)
    (st : ParseState) (row : List String) (day : String)
    (hday : parseDateToDay dj ((getCell row ci.time).getD "") = some day)
    (hnet : jsTrim ((getCell row ci.network).getD "") ≠ "")
    (hshort : ∀ j : Int,
      j ∈ [ci.flow, ci.maxUser, ci.ulPrb, ci.dlPrb, ci.ulRate, ci.dlRate,
           ci.accessRate, ci.dropRate, ci.handoverRate, ci.interference] →
      (row.length : Int) ≤ j) :
    parseNumeric none = none ∧
    (∀ (r : List String) (i : Int), i < 0 ∨ (r.length : Int) ≤ i → getCell r i = none) ∧
    processRow dj ci st row =
      { st with
        processedRows := st.processedRows + 1,
        buckets := mapSetA st.buckets
          (day ++ "__" ++ jsTrim ((getCell row ci.network).getD ""))
          ((mapGetA st.buckets
            (day ++ "__" ++ jsTrim ((getCell row ci.network).getD ""))).getD
            (createEmptyBucket day (jsTrim ((getCell row ci.network).getD "")))),
        invalidFieldStats :=
          bumpStat (bumpStat (bumpStat (bumpStat (bumpStat (bumpStat (bumpStat
            (bumpStat (bumpStat (bumpStat st.invalidFieldStats
              "5G总流量(GB)") "5G最大用户数") "5G上行PRB利用率(%)")
              "5G下行PRB利用率(%)") "5G上行体验速率(Mbps)") "5G下行体验速率(Mbps)")
              "5G无线接通率(%)") "5G无线掉线率(%)") "5G切换成功率(%)")
              "5G上行平均干扰(dBm)" } := by
  refine ⟨rfl, getCell_none, ?_⟩
  have hcell : ∀ j : Int,
      j ∈ [ci.flow, ci.maxUser, ci.ulPrb, ci.dlPrb, ci.ulRate, ci.dlRate,
           ci.accessRate, ci.dropRate, ci.handoverRate, ci.interference] →
      parseNumeric (getCell row j) = none := by
    intro j hj
    rw [getCell_none row j (Or.inr (hshort j hj))]
    rfl
  rw [processRow_keep dj ci st row day hday hnet]
  rw [hcell ci.flow (by simp), hcell ci.maxUser (by simp), hcell ci.ulPrb (by simp),
      hcell ci.dlPrb (by simp), hcell ci.ulRate (by simp), hcell ci.dlRate (by simp),
      hcell ci.accessRate (by simp), hcell ci.dropRate (by simp),
      hcell ci.handoverRate (by simp), hcell ci.interference (by simp)]
  dsimp only
  simp only [Option.isSome_none, bumpUnless_false, Option.getD_none]
  congr 1
  · ext <;> simp

/-- Closed witness for C9: a two-cell row (time and network present,
every numeric cell absent) under a column index whose numeric columns
sit at positions 4 and beyond. -/
theorem short_rows_never_abort_witness :
    processRow djNone (buildColIndex sampleHeader) initParseState
      ["2025-01-01", "x", "NSA"] =
      { initParseState with
        processedRows := initParseState.processedRows + 1,
        buckets := mapSetA initParseState.buckets
          ("2025-01-01" ++ "__" ++ jsTrim
            ((getCell ["2025-01-01", "x", "NSA"]
              (buildColIndex sampleHeader).network).getD ""))
          ((mapGetA initParseState.buckets
            ("2025-01-01" ++ "__" ++ jsTrim
              ((getCell ["2025-01-01", "x", "NSA"]
                (buildColIndex sampleHeader).network).getD ""))).getD
            (createEmptyBucket "2025-01-01"
              (jsTrim ((getCell ["2025-01-01", "x", "NSA"]
                (buildColIndex sampleHeader).network).getD "")))),
        invalidFieldStats :=
          bumpStat (bumpStat (bumpStat (bumpStat (bumpStat (bumpStat (bumpStat
            (bumpStat (bumpStat (bumpStat initParseState.invalidFieldStats
              "5G总流量(GB)") "5G最大用户数") "5G上行PRB利用率(%)")
              "5G下行PRB利用率(%)") "5G上行体验速率(Mbps)") "5G下行体验速率(Mbps)")
              "5G无线接通率(%)") "5G无线掉线率(%)") "5G切换成功率(%)")
              "5G上行平均干扰(dBm)" } :=
  (short_rows_never_abort djNone (buildColIndex sampleHeader) initParseState
    ["2025-01-01", "x", "NSA"] "2025-01-01" (by decide) (by decide)
    (by decide)).2.2

/-! ### Claim C4: the tracked keys of invalidFieldStats -/

/-- C4 (counterexample): the stats record of a run has twelve keys, not
the thirteen (eleven numeric plus time plus network) the claim states;
there are ten numeric fields. -/
theorem invalidFieldStats_twelve_keys_counterexample :
    ((parseDataRows djNone []).invalidFieldStats.map Prod.fst).length = 12 ∧
    ((parseDataRows djNone []).invalidFieldStats.map Prod.fst).length ≠ 13 := by
  decide

/-- C4 (amended): the invalidFieldStats mapping of every aggregation
pass holds exactly twelve tracked keys, the ten numeric fields plus the
time field plus the network field, all pre-initialized to zero even when
never incremented (a pass over a file with no data rows returns them all
zero). -/
theorem invalidFieldStats_tracked_keys :
    (∀ (dj : String → Option String) (rows : List (List String)),
      (parseDataRows dj rows).invalidFieldStats.map Prod.fst = trackedFieldKeys) ∧
    trackedFieldKeys.length = 12 ∧
    (∀ p ∈ initialInvalidFieldStats, p.2 = 0) ∧
    (∀ (dj : String → Option String) (header : List String),
      parseDataRows dj [header] = initParseState) := by
  refine ⟨?_, by decide, by decide, ?_⟩
  · intro dj rows
    unfold parseDataRows
    rw [foldl_processRow_keys]
    rfl
  · intro dj header
    rfl

/-- Closed witness for C4: the key list of the stats record returned for
the dirty test file is exactly the twelve tracked keys. -/
theorem invalidFieldStats_tracked_keys_witness :
    (parseDataRows djNone
      [sampleHeader,
       ["not-a-date", "ci1", "NSA", "A", "10", "100", "20", "30", "40", "50",
        "99.9", "0.1", "95", "-110"]]).invalidFieldStats.map Prod.fst =
      trackedFieldKeys :=
  invalidFieldStats_tracked_keys.1 djNone
    [sampleHeader,
     ["not-a-date", "ci1", "NSA", "A", "10", "100", "20", "30", "40", "50",
      "99.9", "0.1", "95", "-110"]]

example :
    (buildOutputRows sheetStyleBuckets
      { includeDailySubtotalRows := some true, includeGrandTotalRow := some true,
        blankDateForDetailRowsWhenSubtotalEnabled := some true }).map
        (fun r => (r.time, r.network, r.flow, r.maxUser)) =
      [("2025-12-01", "", "178.9", "85"),
       ("", "5G-2.6G", "178.12", "79"),
       ("", "5G-700M", "0.78", "6"),
       ("2025-12-02", "", "180.9", "87"),
       ("", "5G-2.6G", "179.12", "80"),
       ("", "5G-700M", "1.78", "7"),
       ("总计", "", "359.8", "172")] := by
  decide

example :
    buildOutputRows sheetStyleBuckets
      { includeDailySubtotalRows := some true, includeGrandTotalRow := some true } =
      buildOutputRowsSpecSubtotals true (sheetStyleBuckets.map Prod.snd) := by
  decide

/-! ### Properties of the comparators -/

theorem charsLe_total : ∀ (as bs : List Char), charsLe as bs = true ∨ charsLe bs as = true
  | [], _ => Or.inl rfl
  | _ :: _, [] => Or.inr rfl
  | a :: as, b :: bs => by
    by_cases hab : a = b
    · subst hab
      rcases charsLe_total as bs with h | h
      · left; simpa [charsLe] using h
      · right; simpa [charsLe] using h
    · rcases lt_or_gt_of_ne hab with h | h
      · left; simp [charsLe, hab, h]
      · right
        simp only [charsLe, if_neg (Ne.symm hab), decide_eq_true_eq]
        exact h

theorem charsLe_trans : ∀ {as bs cs : List Char},
    charsLe as bs = true → charsLe bs cs = true → charsLe as cs = true
  | [], _, _, _, _ => rfl
  | a :: as, [], _, h, _ => by simp [charsLe] at h
  | a :: as, b :: bs, [], _, h => by simp [charsLe] at h
  | a :: as, b :: bs, c :: cs, h1, h2 => by
    by_cases hab : a = b
    · subst hab
      by_cases hac : a = c
      · subst hac
        simp only [charsLe, if_pos rfl] at h1 h2 ⊢
        exact charsLe_trans h1 h2
      · simp only [charsLe, if_pos rfl] at h1
        simpa [charsLe, hac] using h2
    · simp only [charsLe, if_neg hab, decide_eq_true_eq] at h1
      by_cases hbc : b = c
      · subst hbc
        simp [charsLe, fun h : a = b => hab h, h1]
      · simp only [charsLe, if_neg hbc, decide_eq_true_eq] at h2
        have hac : a < c := lt_trans h1 h2
        simp [charsLe, ne_of_lt hac, hac]

theorem charsLe_antisymm : ∀ {as bs : List Char},
    charsLe as bs = true → charsLe bs as = true → as = bs
  | [], [], _, _ => rfl
  | [], _ :: _, _, h => by simp [charsLe] at h
  | _ :: _, [], h, _ => by simp [charsLe] at h
  | a :: as, b :: bs, h1, h2 => by
    by_cases hab : a = b
    · subst hab
      simp only [charsLe, if_pos rfl] at h1 h2
      rw [charsLe_antisymm h1 h2]
    · simp only [charsLe, if_neg hab, decide_eq_true_eq] at h1
      simp only [charsLe, if_neg (Ne.symm hab), decide_eq_true_eq] at h2
      exact absurd h2 (lt_asymm h1)

theorem strLe_total (a b : String) : strLe a b = true ∨ strLe b a = true :=
  charsLe_total a.data b.data

theorem strLe_trans {a b c : String} (h1 : strLe a b = true) (h2 : strLe b c = true) :
    strLe a c = true :=
  charsLe_trans h1 h2

theorem strLe_antisymm {a b : String} (h1 : strLe a b = true) (h2 : strLe b a = true) :
    a = b := by
  cases a; cases b
  exact congrArg String.mk (charsLe_antisymm h1 h2)

theorem strLe_refl (a : String) : strLe a a = true := by
  rcases strLe_total a a with h | h <;> exact h

instance : IsTotal AggBucket bucketLEP := ⟨by
  intro a b
  unfold bucketLEP bucketLE
  by_cases h : a.date = b.date
  · rw [if_pos h, if_pos h.symm]
    exact strLe_total a.network b.network
  · rw [if_neg h, if_neg (Ne.symm h)]
    exact strLe_total a.date b.date⟩

instance : IsTrans AggBucket bucketLEP := ⟨by
  intro a b c h1 h2
  unfold bucketLEP bucketLE at h1 h2 ⊢
  by_cases hab : a.date = b.date <;> by_cases hbc : b.date = c.date
  · rw [if_pos hab] at h1
    rw [if_pos hbc] at h2
    rw [if_pos (hab.trans hbc)]
    exact strLe_trans h1 h2
  · rw [if_pos hab] at h1
    rw [if_neg hbc] at h2
    rw [if_neg (fun h => hbc (hab.symm.trans h)), hab]
    exact h2
  · rw [if_neg hab] at h1
    rw [if_pos hbc] at h2
    rw [if_neg (fun h => hab (h.trans hbc.symm)), ← hbc]
    exact h1
  · rw [if_neg hab] at h1
    rw [if_neg hbc] at h2
    have hac : a.date ≠ c.date := by
      intro h
      exact hab (strLe_antisymm h1 (h ▸ h2))
    rw [if_neg hac]
    exact strLe_trans h1 h2⟩

instance : IsTotal (String × List AggBucket) entryLEP :=
  ⟨fun p q => strLe_total p.1 q.1⟩

instance : IsTrans (String × List AggBucket) entryLEP :=
  ⟨fun _ _ _ h1 h2 => strLe_trans h1 h2⟩

instance : IsTotal AggBucket netLEP :=
  ⟨fun a b => strLe_total a.network b.network⟩

instance : IsTrans AggBucket netLEP :=
  ⟨fun _ _ _ h1 h2 => strLe_trans h1 h2⟩

/-! ### The grouping loop in closed form -/

theorem mapGetA_eq_none {α : Type} (m : List (String × α)) (k : String)
    (h : m.any (fun p => p.1 = k) = false) : mapGetA m k = none := by
  unfold mapGetA
  rw [List.find?_eq_none.mpr]
  · rfl
  · intro p hp
    have := List.any_eq_false.mp h p hp
    simpa using this

theorem keys_mapSetA_mem {α : Type} (m : List (String × α)) (k : String) (v : α)
    (h : m.any (fun p => p.1 = k) = true) :
    (mapSetA m k v).map Prod.fst = m.map Prod.fst := by
  unfold mapSetA
  rw [if_pos h, List.map_map]
  apply List.map_congr_left
  intro p _
  by_cases hpk : p.1 = k <;> simp [hpk, Function.comp]

theorem mapSetA_not_mem {α : Type} (m : List (String × α)) (k : String) (v : α)
    (h : m.any (fun p => p.1 = k) = false) : mapSetA m k v = m ++ [(k, v)] := by
  unfold mapSetA
  rw [if_neg]
  simp [h]

theorem mapGetA_of_mem {α : Type} (m : List (String × α))
    (hnd : (m.map Prod.fst).Nodup) (p : String × α) (hp : p ∈ m) :
    mapGetA m p.1 = some p.2 := by
  induction m with
  | nil => cases hp
  | cons q rest ih =>
    obtain ⟨a, v⟩ := q
    rw [List.map_cons, List.nodup_cons] at hnd
    rcases List.mem_cons.mp hp with h | h
    · subst h
      simp [mapGetA, List.find?]
    · have ha : ¬ a = p.1 := fun he =>
        hnd.1 (by rw [he]; exact List.mem_map.mpr ⟨p, h, rfl⟩)
      rw [mapGetA_cons, if_neg ha]
      exact ih hnd.2 h

/-- Keys are only dependent on first components, so the membership test
of the grouping loop is stable under value replacement. -/
theorem any_key_map {α β : Type} (m : List (String × α))
    (f : String × α → String × β) (hf : ∀ p, (f p).1 = p.1) (d : String) :
    (m.map f).any (fun p => p.1 = d) = m.any (fun p => p.1 = d) := by
  induction m with
  | nil => rfl
  | cons p rest ih =>
    simp only [List.map_cons, List.any_cons, ih, hf p]

theorem groupStep_present (m : List (String × List AggBucket)) (x : AggBucket)
    (hnd : (m.map Prod.fst).Nodup)
    (h : m.any (fun p => p.1 = x.date) = true) :
    groupStep m x =
      m.map (fun p => if p.1 = x.date then (x.date, p.2 ++ [x]) else p) := by
  unfold groupStep mapSetA
  rw [if_pos h]
  apply List.map_congr_left
  intro p hp
  by_cases hpk : p.1 = x.date
  · rw [if_pos hpk, if_pos hpk]
    rw [show mapGetA m x.date = some p.2 from hpk ▸ mapGetA_of_mem m hnd p hp]
    rfl
  · rw [if_neg hpk, if_neg hpk]

theorem groupStep_absent (m : List (String × List AggBucket)) (x : AggBucket)
    (h : m.any (fun p => p.1 = x.date) = false) :
    groupStep m x = m ++ [(x.date, [x])] := by
  unfold groupStep
  rw [mapGetA_eq_none m _ h, mapSetA_not_mem m _ _ h]
  rfl

theorem keys_map_replace (m : List (String × List AggBucket)) (x : AggBucket) :
    ((m.map (fun p => if p.1 = x.date then (x.date, p.2 ++ [x]) else p)).map Prod.fst) =
      m.map Prod.fst := by
  rw [List.map_map]
  apply List.map_congr_left
  intro p _
  by_cases hpk : p.1 = x.date <;> simp [hpk, Function.comp]

theorem foldl_groupStep_closed :
    ∀ (l : List AggBucket) (m : List (String × List AggBucket)),
    (m.map Prod.fst).Nodup →
    l.foldl groupStep m =
      (m.map (fun p => (p.1, p.2 ++ l.filter (fun b => b.date = p.1)))) ++
        groupPure (l.filter (fun b => !(m.any (fun p => p.1 = b.date))))
  | [], m, _ => by
    simp [groupPure]
  | x :: rest, m, hnd => by
    rw [List.foldl_cons]
    by_cases hmem : m.any (fun p => p.1 = x.date) = true
    · rw [groupStep_present m x hnd hmem]
      rw [foldl_groupStep_closed rest _ (by rw [keys_map_replace]; exact hnd)]
      congr 1
      · rw [List.map_map]
        apply List.map_congr_left
        intro p hp
        by_cases hpk : p.1 = x.date
        · simp only [Function.comp, if_pos hpk, List.filter_cons]
          rw [if_pos (by simp [hpk]), hpk]
          simp
        · simp only [Function.comp, if_neg hpk, List.filter_cons]
          rw [if_neg (by simp; exact fun h => hpk h.symm)]
      · have hf : ∀ p : String × List AggBucket,
            ((fun p => if p.1 = x.date then (x.date, p.2 ++ [x]) else p) p).1 = p.1 := by
          intro p
          by_cases hpk : p.1 = x.date <;> simp [hpk]
        simp only [any_key_map m _ hf]
        congr 1
        rw [List.filter_cons, if_neg (by simp [hmem])]
    · have hmem' : (m.any fun p => p.1 = x.date) = false :=
        Bool.eq_false_iff.mpr hmem
      have hnotin : ∀ p ∈ m, ¬ p.1 = x.date := by
        intro p hp
        have h2 := List.any_eq_false.mp hmem' p hp
        simpa using h2
      rw [groupStep_absent m x hmem']
      rw [foldl_groupStep_closed rest _ ?hnd2]
      case hnd2 =>
        rw [List.map_append, List.nodup_append]
        refine ⟨hnd, List.nodup_singleton _, ?_⟩
        intro a ha hb
        simp only [List.map_cons, List.map_nil, List.mem_singleton] at hb
        obtain ⟨p, hp, hpa⟩ := List.mem_map.mp ha
        exact hnotin p hp (hpa.trans hb)
      rw [List.map_append, List.append_assoc]
      congr 1
      · apply List.map_congr_left
        intro p hp
        rw [List.filter_cons, if_neg (by simp; exact fun h => hnotin p hp h.symm)]
      · have hF : (List.filter (fun b => !(m.any fun p => p.1 = b.date)) rest).filter
              (fun y => y.date = x.date) =
            rest.filter (fun b => b.date = x.date) := by
          rw [List.filter_filter]
          apply List.filter_congr
          intro b _
          by_cases hb : b.date = x.date
          · have hm2 : (m.any fun p => decide (p.1 = b.date)) = false := by
              rw [hb]; exact hmem'
            simp [hb, hm2]
            exact fun a bb hab => hnotin (a, bb) hab
          · simp [hb]
        have hG : groupPure ((List.filter (fun b => !(m.any fun p => p.1 = b.date)) rest).filter
              (fun y => ¬ y.date = x.date)) =
            groupPure (rest.filter
              (fun b => !((m ++ [(x.date, [x])]).any fun p => p.1 = b.date))) := by
          congr 1
          rw [List.filter_filter]
          apply List.filter_congr
          intro b _
          simp only [List.any_append, List.any_cons, List.any_nil, Bool.or_false]
          by_cases hb : b.date = x.date
          · simp [hb]
          · simp [hb]
            intro _
            exact fun h => hb h.symm
        rw [List.filter_cons, if_pos (by simp [hmem'])]
        rw [show groupPure (x :: List.filter (fun b => !(m.any fun p => p.1 = b.date)) rest) =
            (x.date, x :: (List.filter (fun b => !(m.any fun p => p.1 = b.date)) rest).filter
                (fun y => y.date = x.date)) ::
              groupPure ((List.filter (fun b => !(m.any fun p => p.1 = b.date)) rest).filter
                (fun y => ¬ y.date = x.date)) from by rw [groupPure]]
        rw [hF, hG]
        simp

/-- The grouping loop equals its closed recursive form. -/
theorem groupFold_eq_groupPure (l : List AggBucket) : groupFold l = groupPure l := by
  unfold groupFold
  rw [foldl_groupStep_closed l [] (by simp)]
  simp

/-! ### keepFirstFilter and dedupSeen -/

theorem keepFirstFilter_nil : keepFirstFilter [] = [] := by
  rw [keepFirstFilter.eq_def]

theorem keepFirstFilter_cons (d : String) (rest : List String) :
    keepFirstFilter (d :: rest) =
      d :: keepFirstFilter (rest.filter (fun x => ¬ x = d)) := by
  rw [keepFirstFilter.eq_def]

theorem keepFirstFilter_sublist : ∀ (l : List String), List.Sublist (keepFirstFilter l) l
  | [] => by rw [keepFirstFilter_nil]
  | d :: rest => by
    rw [keepFirstFilter_cons]
    exact ((keepFirstFilter_sublist _).trans (List.filter_sublist rest)).cons₂ d
termination_by l => l.length
decreasing_by
  simpa using Nat.lt_succ_of_le (List.length_filter_le _ rest)

theorem mem_of_mem_keepFirstFilter {d : String} {l : List String}
    (h : d ∈ keepFirstFilter l) : d ∈ l :=
  (keepFirstFilter_sublist l).subset h

theorem mem_keepFirstFilter_of_mem : ∀ {l : List String} {d : String},
    d ∈ l → d ∈ keepFirstFilter l
  | [], _, h => by cases h
  | x :: rest, d, h => by
    rw [keepFirstFilter_cons]
    by_cases hdx : d = x
    · exact hdx ▸ List.mem_cons_self x _
    · rcases List.mem_cons.mp h with h | h
      · exact absurd h hdx
      · exact List.mem_cons_of_mem x
          (mem_keepFirstFilter_of_mem (List.mem_filter.mpr ⟨h, by simpa using hdx⟩))
termination_by l => l.length
decreasing_by
  simpa using Nat.lt_succ_of_le (List.length_filter_le _ rest)

theorem nodup_keepFirstFilter : ∀ (l : List String), (keepFirstFilter l).Nodup
  | [] => by rw [keepFirstFilter_nil]; exact List.nodup_nil
  | d :: rest => by
    rw [keepFirstFilter_cons]
    rw [List.nodup_cons]
    refine ⟨?_, nodup_keepFirstFilter _⟩
    intro hmem
    have h2 := (mem_of_mem_keepFirstFilter hmem)
    have h3 := List.of_mem_filter h2
    simp at h3
termination_by l => l.length
decreasing_by
  simpa using Nat.lt_succ_of_le (List.length_filter_le _ rest)

theorem dedupSeen_eq_keepFirstFilter : ∀ (l : List String) (seen : List String),
    dedupSeen seen l = keepFirstFilter (l.filter (fun d => !(seen.contains d)))
  | [], seen => by rw [dedupSeen, List.filter_nil, keepFirstFilter_nil]
  | d :: rest, seen => by
    rw [dedupSeen]
    by_cases hc : seen.contains d = true
    · rw [if_pos hc, List.filter_cons, if_neg (by simpa using hc)]
      exact dedupSeen_eq_keepFirstFilter rest seen
    · have hc' : seen.contains d = false := Bool.eq_false_iff.mpr hc
      rw [if_neg hc]
      rw [List.filter_cons]
      rw [if_pos (by simpa using hc)]
      rw [keepFirstFilter_cons]
      congr 1
      rw [dedupSeen_eq_keepFirstFilter rest (d :: seen)]
      congr 1
      rw [List.filter_filter]
      apply List.filter_congr
      intro x _
      by_cases hxd : x = d <;> simp [hxd, hc']

/-- dedupKeepFirst computes first-occurrence deduplication. -/
theorem dedupKeepFirst_eq (l : List String) : dedupKeepFirst l = keepFirstFilter l := by
  unfold dedupKeepFirst
  rw [dedupSeen_eq_keepFirstFilter]
  congr 1
  simp

/-! ### Closed form of groupPure -/

theorem filterMapDates (rest : List AggBucket) (s : String) :
    (rest.filter (fun x => ¬ x.date = s)).map (fun x => x.date) =
      (rest.map (fun x => x.date)).filter (fun d => ¬ d = s) := by
  induction rest with
  | nil => rfl
  | cons y ys ih =>
    simp only [decide_not] at ih
    by_cases hy : y.date = s <;> simp [List.filter_cons, hy, decide_not, ih]

theorem groupPure_closed : ∀ (l : List AggBucket),
    groupPure l =
      (keepFirstFilter (l.map (fun b => b.date))).map
        (fun d => (d, l.filter (fun b => b.date = d)))
  | [] => by rw [groupPure]; simp [keepFirstFilter_nil]
  | b :: rest => by
    rw [groupPure]
    rw [show (b :: rest).map (fun x => x.date) = b.date :: rest.map (fun x => x.date)
      from rfl]
    rw [keepFirstFilter_cons, List.map_cons]
    congr 1
    · rw [List.filter_cons, if_pos (by simp)]
    · rw [groupPure_closed (rest.filter (fun x => ¬ x.date = b.date))]
      rw [filterMapDates rest b.date]
      apply List.map_congr_left
      intro d hd
      have hdne : ¬ d = b.date := by
        have h2 := mem_of_mem_keepFirstFilter hd
        have h3 := List.of_mem_filter h2
        simpa using h3
      congr 1
      rw [List.filter_cons, if_neg (by simp; exact fun h => hdne h.symm),
        List.filter_filter]
      apply List.filter_congr
      intro x _
      by_cases hx : x.date = d
      · simp [hx, hdne]
      · simp [hx]
termination_by l => l.length
decreasing_by
  simpa using Nat.lt_succ_of_le (List.length_filter_le _ rest)

/-! ### Sortedness transport -/

theorem bucketLEP_dates {a b : AggBucket} (h : bucketLEP a b) :
    strLe a.date b.date = true := by
  unfold bucketLEP bucketLE at h
  by_cases hd : a.date = b.date
  · rw [hd]; exact strLe_refl _
  · rwa [if_neg hd] at h

theorem bucketLEP_of_eq_dates {a b : AggBucket} (hd : a.date = b.date)
    (h : bucketLEP a b) : netLEP a b := by
  unfold bucketLEP bucketLE at h
  unfold netLEP
  rwa [if_pos hd] at h

theorem filter_date_sorted (l : List AggBucket) (hs : List.Pairwise bucketLEP l)
    (d : String) : List.Pairwise netLEP (l.filter (fun b => b.date = d)) := by
  have h1 : List.Pairwise bucketLEP (l.filter (fun b => b.date = d)) :=
    List.Pairwise.sublist (List.filter_sublist l) hs
  refine h1.imp_of_mem ?_
  intro a b ha hb hab
  have hda := List.of_mem_filter ha
  have hdb := List.of_mem_filter hb
  simp only [decide_eq_true_eq] at hda hdb
  exact bucketLEP_of_eq_dates (hda.trans hdb.symm) hab

theorem sorted_dates (l : List AggBucket) (hs : List.Pairwise bucketLEP l) :
    List.Pairwise (fun a b : String => strLe a b = true) (l.map (fun b => b.date)) :=
  hs.map _ (fun _ _ h => bucketLEP_dates h)

/-! ### Claim C2: the subtotal and grand-total output shape -/

/-- C2: with daily subtotals and the grand-total row both enabled, the
output equals, for every date in ascending order, a subtotal row (time
the date, network blank) merging that date buckets field-wise, followed
by the detail rows of that date sorted by network with the time cell
blank when the blank-date flag is true or absent (its default) and
repeating the date when it is false, with exactly one grand-total row
(grand-total label, blank network, merge of every bucket) appended last;
the date list is strictly ascending and covers exactly the dates of the
buckets. -/
theorem buildOutputRows_subtotal_grand_spec (buckets : List (String × AggBucket)) :
    (∀ blankOpt : Option Bool,
      buildOutputRows buckets
        { includeDailySubtotalRows := some true, includeGrandTotalRow := some true,
          blankDateForDetailRowsWhenSubtotalEnabled := blankOpt } =
        buildOutputRowsSpecSubtotals (blankOpt.getD true) (buckets.map Prod.snd)) ∧
    (List.Pairwise (fun a b : String => strLe a b = true)
      (dedupKeepFirst ((List.insertionSort bucketLEP (buckets.map Prod.snd)).map
        (fun b => b.date))) ∧
     (dedupKeepFirst ((List.insertionSort bucketLEP (buckets.map Prod.snd)).map
        (fun b => b.date))).Nodup ∧
     ∀ d : String,
       d ∈ dedupKeepFirst ((List.insertionSort bucketLEP (buckets.map Prod.snd)).map
          (fun b => b.date)) ↔
       d ∈ (buckets.map Prod.snd).map (fun b => b.date)) := by
  have hsorted : List.Pairwise bucketLEP
      (List.insertionSort bucketLEP (buckets.map Prod.snd)) :=
    List.sorted_insertionSort bucketLEP (buckets.map Prod.snd)
  have hdates : List.Pairwise (fun a b : String => strLe a b = true)
      (dedupKeepFirst ((List.insertionSort bucketLEP (buckets.map Prod.snd)).map
        (fun b => b.date))) := by
    rw [dedupKeepFirst_eq]
    exact List.Pairwise.sublist (keepFirstFilter_sublist _) (sorted_dates _ hsorted)
  refine ⟨?_, hdates, ?_, ?_⟩
  · intro blankOpt
    unfold buildOutputRows buildOutputRowsSpecSubtotals
    simp only [Option.getD_some]
    rw [if_neg (by simp)]
    rw [if_pos (by simp)]
    rw [groupFold_eq_groupPure, groupPure_closed, ← dedupKeepFirst_eq]
    have hent : List.Sorted entryLEP
        ((dedupKeepFirst ((List.insertionSort bucketLEP (buckets.map Prod.snd)).map
          (fun b => b.date))).map
          (fun d => (d, (List.insertionSort bucketLEP (buckets.map Prod.snd)).filter
            (fun b => b.date = d)))) :=
      List.pairwise_map.mpr hdates
    rw [List.Sorted.insertionSort_eq hent]
    rw [List.map_map]
    congr 1
    congr 1
    apply List.map_congr_left
    intro d _
    have hnet : List.Sorted netLEP
        ((List.insertionSort bucketLEP (buckets.map Prod.snd)).filter
          (fun b => b.date = d)) :=
      filter_date_sorted _ hsorted d
    simp only [Function.comp]
    rw [List.Sorted.insertionSort_eq hnet]
  · rw [dedupKeepFirst_eq]
    exact nodup_keepFirstFilter _
  · intro d
    rw [dedupKeepFirst_eq]
    constructor
    · intro h
      have h2 := mem_of_mem_keepFirstFilter h
      simp only [List.mem_map, List.mem_insertionSort] at h2 ⊢
      exact h2
    · intro h
      apply mem_keepFirstFilter_of_mem
      simp only [List.mem_map, List.mem_insertionSort] at h ⊢
      exact h

/-! ### Claim C10: options only move rows and relabel time and network -/

/-- C10: the ten formatted numeric cells written by toOutputRow do not
depend on the time and network overrides that the option modes use, and
for every bucket of the map and every option combination the output of
buildOutputRows contains a row whose ten numeric cells are exactly those
of the bucket detail row produced with both options disabled. -/
theorem detail_rows_numeric_frame (item : AggBucket) (dv nv : Option String)
    (buckets : List (String × AggBucket)) (opts : AggregationOutputOptions) :
    numericCells (toOutputRow item dv nv) = numericCells (toOutputRow item none none) ∧
    (∀ b ∈ buckets.map Prod.snd, ∃ r ∈ buildOutputRows buckets opts,
      numericCells r = numericCells (toOutputRow b none none)) := by
  constructor
  · rfl
  · intro b hb
    simp only [buildOutputRows]
    cases hsub : opts.includeDailySubtotalRows.getD false with
    | false =>
      refine ⟨toOutputRow b none none, ?_, rfl⟩
      rw [if_pos (by simp)]
      apply List.mem_append_left
      exact List.mem_map_of_mem _ ((List.mem_insertionSort _).mpr hb)
    | true =>
      refine ⟨toOutputRow b
        (some (if opts.blankDateForDetailRowsWhenSubtotalEnabled.getD true then ""
          else b.date)) (some b.network), ?_, rfl⟩
      rw [if_neg (by simp)]
      apply List.mem_append_left
      rw [groupFold_eq_groupPure, groupPure_closed]
      have hmem1 : (b.date,
          (List.insertionSort bucketLEP (buckets.map Prod.snd)).filter
            (fun x => x.date = b.date)) ∈
          List.insertionSort entryLEP
            ((keepFirstFilter ((List.insertionSort bucketLEP (buckets.map Prod.snd)).map
              (fun x => x.date))).map
              (fun d => (d, (List.insertionSort bucketLEP (buckets.map Prod.snd)).filter
                (fun x => x.date = d)))) := by
        apply (List.mem_insertionSort _).mpr
        apply List.mem_map_of_mem
        exact mem_keepFirstFilter_of_mem
          (List.mem_map_of_mem _ ((List.mem_insertionSort _).mpr hb))
      refine List.mem_flatten.mpr ⟨_, List.mem_map_of_mem _ hmem1, ?_⟩
      apply List.mem_cons_of_mem
      apply List.mem_map_of_mem
      apply (List.mem_insertionSort _).mpr
      exact List.mem_filter.mpr ⟨(List.mem_insertionSort _).mpr hb, by simp⟩

/-- Closed witness for C10 at a one-bucket map with both options on. -/
theorem detail_rows_numeric_frame_witness :
    numericCells (toOutputRow sampleBucketA (some "") (some "NSA")) =
      numericCells (toOutputRow sampleBucketA none none) ∧
    ∃ r ∈ buildOutputRows [("2025-01-01__NSA", sampleBucketA)]
        { includeDailySubtotalRows := some true, includeGrandTotalRow := some true },
      numericCells r = numericCells (toOutputRow sampleBucketA none none) := by
  have h := detail_rows_numeric_frame sampleBucketA (some "") (some "NSA")
    [("2025-01-01__NSA", sampleBucketA)]
    { includeDailySubtotalRows := some true, includeGrandTotalRow := some true }
  exact ⟨h.1, h.2 sampleBucketA (by decide)⟩

example : firstOutputPath "input.csv" = "input-统计.csv" := by decide
example : numberedOutputPath "input.csv" 1 = "input-统计(1).csv" := by decide
example : extname "data/input.report.xlsx" = ".xlsx" := by decide
example : dirname "data/input.csv" = "data" := by decide
example : basenameExt "data/input.csv" ".csv" = "input" := by decide

example :
    getNextAvailableOutputPath (fun s => s = "input-统计.csv") 0 "input.csv" =
      "input-统计(1).csv" := by decide

example :
    getNextAvailableOutputPath (fun _ => false) 0 "input.csv" = "input-统计.csv" := by
  decide

/-- C3 (counterexample): in a filesystem state where every path exists
(base name, all 9999 numbered candidates, and the timestamp candidate
all taken), the timestamp fallback is returned without an existence
check, so the selected output path does exist at selection time and the
universally quantified claim is false. -/
theorem output_path_exists_counterexample :
    ((fun _ => true : String → Bool)
      (getNextAvailableOutputPath (fun _ => true) 0 "input.csv") = true) ∧
    ¬ (∀ (fs : String → Bool) (now : Nat) (p : String),
        fs (getNextAvailableOutputPath fs now p) = false) := by
  refine ⟨rfl, fun h => ?_⟩
  have h2 := h (fun _ => true) 0 "input.csv"
  simp at h2

/-- C3 (amended): whenever the base output name or at least one of the
9999 numbered candidates is free, the selected output path does not
exist on disk at the time of selection, so an existing output file is
never overwritten and the collision is resolved by choosing the first
fresh name rather than by returning an error; only when all 10000 of
those names are taken does the source return the timestamp fallback
without a final existence check. -/
theorem getNextAvailableOutputPath_fresh (fs : String → Bool) (now : Nat) (p : String)
    (h : fs (firstOutputPath p) = false ∨
      ∃ i, i ∈ List.range' 1 9999 ∧ fs (numberedOutputPath p i) = false) :
    fs (getNextAvailableOutputPath fs now p) = false := by
  unfold getNextAvailableOutputPath
  by_cases h1 : fs (firstOutputPath p) = true
  · rw [if_neg (by simp [h1])]
    rcases h with h | ⟨i, hi, hfree⟩
    · rw [h1] at h; cases h
    · have hex : ((List.range' 1 9999).find?
          (fun i => ¬ fs (numberedOutputPath p i))).isSome := by
        apply List.find?_isSome.mpr
        exact ⟨i, hi, by simp [hfree]⟩
      rcases ho : (List.range' 1 9999).find?
          (fun i => ¬ fs (numberedOutputPath p i)) with _ | j
      · rw [ho] at hex; cases hex
      · have hj := List.find?_some ho
        simpa using hj
  · have h1' : fs (firstOutputPath p) = false := Bool.eq_false_iff.mpr h1
    rw [if_pos (by simp [h1'])]
    exact h1'

/-- Closed witness for C3: on an empty filesystem the selected path is
free. -/
theorem getNextAvailableOutputPath_fresh_witness :
    (fun _ => false : String → Bool)
      (getNextAvailableOutputPath (fun _ => false) 0 "input.csv") = false :=
  getNextAvailableOutputPath_fresh (fun _ => false) 0 "input.csv" (Or.inl rfl)

end Spec2Proof
